import Mathlib

/-!
Verification of the remote-image rendering and caching subsystem
(components/WatermarkedImage.tsx and its superseding variants).

The TypeScript source is shallowly embedded as follows.

* The global `imageCache : Map<string, CachedImage>` becomes an association
  list `CacheStore` kept in insertion order, with `mapGet`, `mapSet`,
  `mapDelete` mirroring `Map.get` / `Map.set` / `Map.delete` (set on an
  existing key updates in place, set on a new key appends, matching the
  iteration order of a JavaScript `Map`).
* A rendered canvas is abstracted to an identifier `canvas : Nat`; the
  pixel-level gray test of the Safari branch becomes an abstract predicate
  `grayCheck : Nat → Bool` passed as a parameter.
* Timestamps and `Date.now()` are natural numbers (milliseconds).
* `entries.sort((a, b) => a[1].timestamp - b[1].timestamp)` is modelled by
  `List.insertionSort` on the timestamp order, which agrees with the stable
  sort of the source whenever timestamps are distinct (the claims about
  eviction order are read with distinct timestamps).
* The arithmetic `size > MAX * 0.8`, `Math.floor(len * 0.5)`,
  `Math.floor(len * 0.3)` is written with exact integer arithmetic
  (`10 * size > 8 * max`, `len * 5 / 10`, `len * 3 / 10`).  For the operand
  ranges that occur (sizes up to the capacity constants 20/50/100) the
  IEEE-754 double computations of the source coincide with the exact
  rational values, so the integer forms are faithful.
* Asynchronous signals (image load, decode error, timeout, polling ticks)
  become explicit outcome values / event lists; the display state updates of
  `setIsLoading` / `setError` become fields of explicit state records.
* The `useCallback` closure structure is modelled explicitly: the stale-
  outcome guard `imageId && currentImageId && imageId !== currentImageId`
  of the asynchronous handlers reads both operands from values captured
  when the load was issued (the handlers close over the `imageId` prop and
  the `currentImageId` state as of that render), so `applyOutcome` takes
  the captured pair as parameters, not the live state.
* `getOptimalCanvasSize` divides and multiplies IEEE-754 doubles
  (`maxDimension / width`, `width * ratio`) before flooring; this is
  embedded exactly: a double is a pair `FloatVal = (significand, exponent)`
  with `toRat (m, e) = m * 2 ^ e`, `divDouble` / `mulNatDouble` perform the
  division/multiplication with round-to-nearest-even at 53 significant
  bits (`roundNearestEven`, normalisation by the fueled shift searches
  `divShift` / `mulShift`), and `floorDouble` takes the final
  `Math.floor`.  For the operand ranges that occur the model has no
  overflow or underflow, so it coincides with binary64.
-/

namespace Torutora

/-! ## Cache store (WatermarkedImage.tsx, lines 4-58) -/

/-- Entry of the global image cache: `{ canvas, timestamp }`.  The canvas is
abstracted to an identifier for the rendered artifact. -/
structure CachedImage where
  canvas : Nat
  timestamp : Nat
deriving DecidableEq

/-- The global `imageCache`, as an association list in `Map` insertion
order. -/
abbrev CacheStore := List (String × CachedImage)

/-- `CACHE_EXPIRY_TIME = 60 * 60 * 1000` (60 minutes). -/
def CACHE_EXPIRY_TIME : Nat := 60 * 60 * 1000

/-- `MAX_CACHE_SIZE = 100` in the authoritative component file. -/
def MAX_CACHE_SIZE : Nat := 100

/-- `getCacheKey(src, alt)` returns the template string `src|alt`. -/
def getCacheKey (src alt : String) : String := src ++ "|" ++ alt

/-- `imageCache.get(key)`. -/
def mapGet (m : CacheStore) (k : String) : Option CachedImage :=
  (m.find? (fun e => e.1 == k)).map (fun e => e.2)

/-- `imageCache.has(key)`. -/
def mapHas (m : CacheStore) (k : String) : Bool :=
  (m.find? (fun e => e.1 == k)).isSome

/-- `imageCache.delete(key)`. -/
def mapDelete (m : CacheStore) (k : String) : CacheStore :=
  m.filter (fun e => e.1 != k)

/-- `imageCache.set(key, v)`: update in place when the key exists, append
otherwise (JavaScript `Map` keeps the original insertion position). -/
def mapSet (m : CacheStore) (k : String) (v : CachedImage) : CacheStore :=
  if mapHas m k then m.map (fun e => if e.1 == k then (k, v) else e)
  else m ++ [(k, v)]

/-- `cleanupExpiredCache`: delete every entry with
`now - timestamp > CACHE_EXPIRY_TIME`. -/
def cleanupExpiredCache (now : Nat) (m : CacheStore) : CacheStore :=
  m.filter (fun e => !(CACHE_EXPIRY_TIME < now - e.2.timestamp))

/-- The comparator of `entries.sort((a, b) => a[1].timestamp - b[1].timestamp)`:
order by stored timestamp. -/
def byAge (a b : String × CachedImage) : Prop :=
  a.2.timestamp ≤ b.2.timestamp

instance : DecidableRel byAge := fun a b => Nat.decLe a.2.timestamp b.2.timestamp

instance : IsTotal (String × CachedImage) byAge :=
  ⟨fun a b => Nat.le_total a.2.timestamp b.2.timestamp⟩

instance : IsTrans (String × CachedImage) byAge :=
  ⟨fun _ _ _ h1 h2 => Nat.le_trans h1 h2⟩

/-- `toDelete.forEach(([key]) => imageCache.delete(key))`. -/
def deleteAll (m : CacheStore) (ks : List String) : CacheStore :=
  ks.foldl mapDelete m

/-- Sort a snapshot of the entries by timestamp, take the oldest `k`, and
delete these keys from the map — the common trimming pattern of
`cleanupOldCache` and of the tiered pressure branches. -/
def removeOldest (k : Nat) (m : CacheStore) : CacheStore :=
  deleteAll m (((List.insertionSort byAge m).take k).map (fun e => e.1))

/-- `cleanupOldCache`, parameterised by the capacity constant (100 in the
component file, 50 and 20 in the superseding variants): when over capacity,
delete the oldest `size - max` entries. -/
def cleanupOldCacheWith (maxSize : Nat) (m : CacheStore) : CacheStore :=
  if m.length ≤ maxSize then m
  else removeOldest (m.length - maxSize) m

/-- `cleanupOldCache` of the authoritative component file (capacity 100). -/
def cleanupOldCache (m : CacheStore) : CacheStore :=
  cleanupOldCacheWith MAX_CACHE_SIZE m

/-- `checkMemoryPressure` of the authoritative component file: on a
constrained engine (Safari mobile), run `cleanupOldCache` above 60 % of
capacity, and again above 20 entries.  `size > MAX_CACHE_SIZE * 0.6` is
written `10 * size > 6 * MAX_CACHE_SIZE` (exact for these operands). -/
def checkMemoryPressure (constrained : Bool) (m : CacheStore) : CacheStore :=
  if constrained then
    let m1 := if 10 * m.length > 6 * MAX_CACHE_SIZE then cleanupOldCache m else m
    if 20 < m1.length then cleanupOldCache m1 else m1
  else m

namespace P4

/-- `MAX_CACHE_SIZE = 20` in the tiered variant (src/unnamed/part_004). -/
def MAX_CACHE_SIZE : Nat := 20

/-- `cleanupOldCache` of the tiered variant (capacity 20). -/
def cleanupOldCache (m : CacheStore) : CacheStore :=
  cleanupOldCacheWith MAX_CACHE_SIZE m

/-- Tiered `checkMemoryPressure` of src/unnamed/part_004 (lines 68-123):
only on a constrained engine; strictly above 80 % of capacity run
`cleanupOldCache`; else strictly above 60 % delete the oldest
`Math.floor(len * 0.5)` entries; else strictly above 40 % delete the oldest
`Math.floor(len * 0.3)` entries.  The comparisons `size > 20 * 0.8` etc. and
the floors are exact in double arithmetic for the sizes that can occur, and
are written with integer arithmetic. -/
def checkMemoryPressure (constrained : Bool) (m : CacheStore) : CacheStore :=
  if constrained then
    if 10 * m.length > 8 * MAX_CACHE_SIZE then cleanupOldCache m
    else if 10 * m.length > 6 * MAX_CACHE_SIZE then removeOldest (m.length * 5 / 10) m
    else if 10 * m.length > 4 * MAX_CACHE_SIZE then removeOldest (m.length * 3 / 10) m
    else m
  else m

/-- Modelled from the spec: the pressure monitor as the claim words it, with
inclusive (≥) thresholds — at ≥ 80 % of capacity trim to capacity, at ≥ 60 %
drop the oldest 50 %, at ≥ 40 % drop the oldest 30 %.  Kept only to compare
with `P4.checkMemoryPressure`, which the source defines with strict
thresholds. -/
def checkMemoryPressureSpec (constrained : Bool) (m : CacheStore) : CacheStore :=
  if constrained then
    if 10 * m.length ≥ 8 * MAX_CACHE_SIZE then cleanupOldCache m
    else if 10 * m.length ≥ 6 * MAX_CACHE_SIZE then removeOldest (m.length * 5 / 10) m
    else if 10 * m.length ≥ 4 * MAX_CACHE_SIZE then removeOldest (m.length * 3 / 10) m
    else m
  else m

end P4

/-- Keys of a store. -/
def storeKeys (m : CacheStore) : List String := m.map (fun e => e.1)

/-- The `Map` invariant: every key occurs at most once. -/
def keysNodup (m : CacheStore) : Prop := (storeKeys m).Nodup

/-- All stored timestamps are distinct (used to read "oldest" and "most
recently written" unambiguously). -/
def tsNodup (m : CacheStore) : Prop :=
  (m.map (fun e => e.2.timestamp)).Nodup

instance (m : CacheStore) : Decidable (keysNodup m) :=
  inferInstanceAs (Decidable (storeKeys m).Nodup)

instance (m : CacheStore) : Decidable (tsNodup m) :=
  inferInstanceAs (Decidable (m.map (fun e : String × CachedImage => e.2.timestamp)).Nodup)

/-- A trim step removed exactly the `k` oldest entries: there is a list
`del` of `k` removed entries, processed in nondecreasing timestamp order,
such that the old store is a permutation of `del ++` the new store, every
removed entry is at least as old as every retained one, and strictly older
when timestamps are distinct. -/
def oldestRemoval (m r : CacheStore) (k : Nat) : Prop :=
  ∃ del : CacheStore,
    del.length = k ∧
    List.Sorted byAge del ∧
    m.Perm (del ++ r) ∧
    (∀ d ∈ del, ∀ e ∈ r, d.2.timestamp ≤ e.2.timestamp) ∧
    (tsNodup m → ∀ d ∈ del, ∀ e ∈ r, d.2.timestamp < e.2.timestamp)

/-! ## Substring test and low-resolution URL rewriting -/

/-- Whether `pat` is a prefix of `s` (character lists). -/
def listStarts : List Char → List Char → Bool
  | _, [] => true
  | [], _ :: _ => false
  | a :: s, b :: p => a == b && listStarts s p

/-- Whether `pat` occurs somewhere in `s` (character lists). -/
def listContains (pat : List Char) : List Char → Bool
  | [] => listStarts [] pat
  | c :: t => listStarts (c :: t) pat || listContains pat t

/-- `s.includes(pat)` on strings. -/
def strContains (s pat : String) : Bool := listContains pat.data s.data

/-- `getLowResUrl`: append `&q=30` for Firebase Storage URLs. -/
def getLowResUrl (url : String) : String :=
  if strContains url "firebasestorage.googleapis.com" then url ++ "&q=30" else url

/-! ## Display-path load flow (`getCachedOrCreateImage`, lines 369-670) -/

/-- Outcome of one `new Image()` fetch+decode of a locator: the decode
succeeds with a bitmap, fires `onerror`, or produces no signal within the
10-second timeout.  The flow below consumes the first signal to arrive. -/
inductive FetchOutcome where
  | success (img : Nat)
  | decodeError
  | timeout
deriving DecidableEq

/-- Display state of one component instance. -/
inductive DState where
  | Loading
  | Displaying (content : Nat)
  | ErrState
deriving DecidableEq

/-- Result of running the load flow: final store, final display state, the
display states set during the flow, the locators attempted in order, and how
often the `onLoadComplete` / `onLoadError` callbacks fired. -/
structure LoadResult where
  store : CacheStore
  state : DState
  visited : List DState
  attempts : List String
  readyCalls : Nat
  errorCalls : Nat
deriving DecidableEq

/-- The cache write of a successful load (lines 559-576): `imageCache.set`
with the current time, then `cleanupExpiredCache()`, then
`cleanupOldCache()`. -/
def cacheSave (m : CacheStore) (key : String) (artifact : Nat) (now : Nat) : CacheStore :=
  cleanupOldCache (cleanupExpiredCache now (mapSet m key ⟨artifact, now⟩))

/-- The lookup prefix of `getCachedOrCreateImage` (lines 369-457):
`checkMemoryPressure()`; delete the key when the locator carries the reload
marker `?t=`; on a constrained engine delete a cached canvas that the pixel
probe classifies as all-gray; finally a hit is returned only when the entry
is younger than `CACHE_EXPIRY_TIME`, otherwise the store is left as is and
the flow falls through to a fresh load. -/
def lookupPhase (constrained : Bool) (grayCheck : Nat → Bool) (alt : String) (now : Nat)
    (store : CacheStore) (imageSrc : String) : CacheStore × Option CachedImage :=
  let s0 := checkMemoryPressure constrained store
  let key := getCacheKey imageSrc alt
  let s1 := if strContains imageSrc "?t=" then mapDelete s0 key else s0
  let s2 :=
    match mapGet s1 key with
    | some c => if constrained && grayCheck c.canvas then mapDelete s1 key else s1
    | none => s1
  match mapGet s2 key with
  | some c => if now - c.timestamp < CACHE_EXPIRY_TIME then (s2, some c) else (s2, none)
  | none => (s2, none)

/-- Environment of one load flow: the capability flag, the gray probe, the
fetch outcomes per (resolved) locator, the renderer, the label, the optional
fallback locator and the current time. -/
structure LoadParams where
  constrained : Bool
  grayCheck : Nat → Bool
  loads : String → FetchOutcome
  render : Nat → Nat
  alt : String
  fallbackSrc : Option String
  now : Nat

/-- One attempt of `getCachedOrCreateImage(imageSrc, isFallback)`.  The
`retry` parameter encodes `isFallback`: `none` means `isFallback = true` (no
retry left), `some doRetry` means `isFallback = false` and `doRetry` runs the
fallback attempt.  Cache hit: copy the canvas and display it
(`onLoadComplete` after 50 ms).  Miss: fetch the low-resolution URL; on
success render, save to cache and display; on timeout report the error
directly; on decode error clear the key on a constrained engine, then retry
once against a supplied, different, nonempty fallback
(`fallbackSrc && !isFallback && imageSrc !== fallbackSrc`), else set the
error state. -/
def attemptStep (P : LoadParams) (retry : Option (CacheStore → String → LoadResult))
    (store : CacheStore) (imageSrc : String) : LoadResult :=
  let key := getCacheKey imageSrc P.alt
  match lookupPhase P.constrained P.grayCheck P.alt P.now store imageSrc with
  | (s, some c) =>
    { store := s, state := .Displaying c.canvas, visited := [.Displaying c.canvas],
      attempts := [], readyCalls := 1, errorCalls := 0 }
  | (s, none) =>
    match P.loads (getLowResUrl imageSrc) with
    | .success img =>
      let artifact := P.render img
      { store := cacheSave s key artifact P.now, state := .Displaying artifact,
        visited := [.Displaying artifact], attempts := [imageSrc],
        readyCalls := 1, errorCalls := 0 }
    | .timeout =>
      { store := s, state := .ErrState, visited := [.ErrState],
        attempts := [imageSrc], readyCalls := 0, errorCalls := 1 }
    | .decodeError =>
      let s2 := if P.constrained then mapDelete s key else s
      match retry, P.fallbackSrc with
      | some doRetry, some f =>
        if f ≠ "" ∧ imageSrc ≠ f then
          let res := doRetry s2 f
          { res with attempts := imageSrc :: res.attempts }
        else
          { store := s2, state := .ErrState, visited := [.ErrState],
            attempts := [imageSrc], readyCalls := 0, errorCalls := 1 }
      | _, _ =>
        { store := s2, state := .ErrState, visited := [.ErrState],
          attempts := [imageSrc], readyCalls := 0, errorCalls := 1 }

/-- `retries` fallback attempts left (`retries = 1` on the primary call,
`retries = 0` inside the fallback attempt). -/
def runAttempt (P : LoadParams) : Nat → CacheStore → String → LoadResult
  | 0 => attemptStep P none
  | r + 1 => attemptStep P (some (runAttempt P r))

/-- The display-path entry point: a primary attempt with the single fallback
retry still available. -/
def getCachedOrCreateImage (P : LoadParams) (store : CacheStore) (imageSrc : String) :
    LoadResult :=
  runAttempt P 1 store imageSrc

/-! ## Stale-result suppression (lines 466-492, 607-625) -/

/-- The guard `imageId && currentImageId && imageId !== currentImageId` of
the `onload` / `onerror` / timeout handlers; `undefined` and the empty
string are falsy. -/
def isStaleOutcome (requestId currentId : Option String) : Bool :=
  match requestId, currentId with
  | some a, some b => (a != "") && (b != "") && (a != b)
  | _, _ => false

/-- Display state of one component instance, as mutated by the asynchronous
handlers (`setIsLoading`, `setError`, drawing into the visible canvas). -/
structure CState where
  displayed : Option Nat
  isLoading : Bool
  errorFlag : Bool
  currentImageId : Option String
deriving DecidableEq

/-- The asynchronous signal an outcome delivers. -/
inductive LoadSignal where
  | onloadSig (artifact : Nat)
  | onerrorSig
  | timeoutSig
deriving DecidableEq

/-- Apply an arriving outcome to the instance.  The guard operands are NOT
read from the live instance at arrival time: the handlers live inside the
`useCallback` closure of the render that issued the load, so both `imageId`
(prop) and `currentImageId` (state) are captured together at load creation
— `capturedImageId` and `capturedCurrentId` here.  The handler compares
only these two captured values; for every load issued while its request was
current they are equal and the guard can never fire.  When the guard does
not fire, `onload` draws the artifact into the shared canvas and clears
loading, and `onerror` / timeout set the error state. -/
def applyOutcome (capturedImageId capturedCurrentId : Option String)
    (sig : LoadSignal) (s : CState) : CState :=
  if isStaleOutcome capturedImageId capturedCurrentId then s
  else
    match sig with
    | .onloadSig a => { s with displayed := some a, isLoading := false }
    | .onerrorSig => { s with errorFlag := true, isLoading := false }
    | .timeoutSig => { s with errorFlag := true, isLoading := false }

/-! ## Safari polling completion detector (lines 649-669) -/

/-- Per-attempt completion state on the polling platform: whether the
100 ms `setInterval` probe is still running, and how often the success and
error handlers have run. -/
structure PollAttempt where
  intervalActive : Bool
  successFires : Nat
  errorFires : Nat
deriving DecidableEq

/-- Completion signals of one attempt: the native events, a polling tick
observing (`img.complete`, `naturalWidth > 0 && naturalHeight > 0`), and the
5-second stop that clears the interval. -/
inductive PollEvent where
  | nativeLoad
  | nativeError
  | pollTick (complete : Bool) (naturalOk : Bool)
  | pollWindowEnd
deriving DecidableEq

/-- One step of the authoritative component file: the native handlers run
unconditionally (the file keeps no `onloadCalled` / `onerrorCalled` flags and
a native event does not clear the interval); a polling tick that observes a
complete image clears the interval and invokes `img.onload` / `img.onerror`
manually. -/
def pollStep (s : PollAttempt) : PollEvent → PollAttempt
  | .nativeLoad => { s with successFires := s.successFires + 1 }
  | .nativeError => { s with errorFires := s.errorFires + 1 }
  | .pollTick c ok =>
    if s.intervalActive && c then
      if ok then
        { intervalActive := false, successFires := s.successFires + 1,
          errorFires := s.errorFires }
      else
        { intervalActive := false, successFires := s.successFires,
          errorFires := s.errorFires + 1 }
    else s
  | .pollWindowEnd => { s with intervalActive := false }

/-- Run one attempt on the polling platform from its initial state (interval
just started, no handler has run). -/
def runPoll (events : List PollEvent) : PollAttempt :=
  events.foldl pollStep { intervalActive := true, successFires := 0, errorFires := 0 }

/-! ## In-flight registry (src/unnamed/part_004, `preloadingImages` and
`loadImageWithPriority`, lines 171-437; `preloadImage` of the component
file, lines 130-137) -/

/-- Shared state seen by `loadImageWithPriority`: the cache, the
`preloadingImages` registry mapping keys to their pending promise (promises
abstracted to handles), and the next fresh handle. -/
structure FlightState where
  cache : CacheStore
  inflight : List (String × Nat)
  nextHandle : Nat
deriving DecidableEq

/-- What a priority-load request returns: an immediate resolve on a cached
key, the existing pending promise of an in-flight key, or a freshly started
pipeline. -/
inductive PriorityOutcome where
  | cachedHit
  | attached (handle : Nat)
  | started (handle : Nat)
deriving DecidableEq

/-- `preloadingImages.get(key)`. -/
def inflightLookup (l : List (String × Nat)) (k : String) : Option Nat :=
  (l.find? (fun e => e.1 == k)).map (fun e => e.2)

/-- `loadImageWithPriority` admission logic (part_004): resolve immediately
when cached; return the registered promise when the key is already
in flight; otherwise create one pipeline and register its promise under the
key. -/
def loadImageWithPriority (st : FlightState) (src alt : String) :
    PriorityOutcome × FlightState :=
  let key := getCacheKey src alt
  if mapHas st.cache key then (.cachedHit, st)
  else
    match inflightLookup st.inflight key with
    | some h => (.attached h, st)
    | none =>
      (.started st.nextHandle,
       { st with inflight := st.inflight ++ [(key, st.nextHandle)],
                 nextHandle := st.nextHandle + 1 })

/-- The admission check of `preloadImage` in the authoritative component
file: it consults only the cache of completed artifacts (`imageCache.has`),
with no in-flight registry; `true` means a new fetch+render pipeline is
started. -/
def preloadImageStartsPipeline (cache : CacheStore) (src alt : String) : Bool :=
  !(mapHas cache (getCacheKey src alt))

/-- Two `preloadImage` calls for the same key arriving before the first one
settles: the cache is still empty at the second check, so each call decides
on the cache alone.  Returns the number of pipelines started. -/
def tsxTwoConcurrentPreloads (src alt : String) : Nat :=
  let cache : CacheStore := []
  (if preloadImageStartsPipeline cache src alt then 1 else 0) +
  (if preloadImageStartsPipeline cache src alt then 1 else 0)

/-! ## Canvas sizing (`getOptimalCanvasSize`, lines 339-358) -/

/-- `MAX_CANVAS_DIMENSION = 2048` (display path). -/
def MAX_CANVAS_DIMENSION : Nat := 2048

/-- `MAX_CANVAS_AREA = 2048 * 2048` (display path). -/
def MAX_CANVAS_AREA : Nat := 2048 * 2048

/-- Round `a / b` to the nearest integer, ties to even (`b > 0`): the
rounding step of IEEE-754 round-to-nearest-even. -/
def roundNearestEven (a b : Nat) : Nat :=
  if 2 * (a % b) > b ∨ (2 * (a % b) = b ∧ (a / b) % 2 = 1) then a / b + 1 else a / b

/-- A binary64 value `m * 2^e` (significand times power of two).  The
exponent is unbounded, which coincides with binary64 wherever no overflow or
underflow occurs — true of every quantity arising in
`getOptimalCanvasSize` for realistic dimensions. -/
abbrev FloatVal := Nat × ℤ

/-- Rational value of a `FloatVal`. -/
def toRat (x : FloatVal) : ℚ := (x.1 : ℚ) * (2 : ℚ) ^ x.2

/-- Search upward for a shift `t` with `2^52 * b ≤ a * 2^t` (fuelled; the
caller re-checks the result). -/
def divShift (a b : Nat) : Nat → Nat → Nat
  | 0, t => t
  | fuel + 1, t => if 2 ^ 52 * b ≤ a * 2 ^ t then t else divShift a b fuel (t + 1)

/-- The correctly rounded binary64 quotient `a / b` — the source's
`MAX_CANVAS_DIMENSION / width`.  The quotient is scaled into `[2^52, 2^53)`
and rounded to the nearest 53-bit significand, ties to even. -/
def divDouble (a b : Nat) : FloatVal :=
  if a = 0 ∨ b = 0 then (0, 0)
  else
    let t := divShift a b 1200 0
    if 2 ^ 52 * b ≤ a * 2 ^ t ∧ a * 2 ^ t < 2 ^ 53 * b then
      (roundNearestEven (a * 2 ^ t) b, -(t : ℤ))
    else (0, 0)

/-- Search upward for a shift `s` with `p < 2^53 * 2^s` (fuelled; the
caller re-checks the result). -/
def mulShift (p : Nat) : Nat → Nat → Nat
  | 0, s => s
  | fuel + 1, s => if p < 2 ^ 53 * 2 ^ s then s else mulShift p fuel (s + 1)

/-- The correctly rounded binary64 product of the integer-valued double `w`
and the double `x` — the source's `width * ratio`.  An exact product below
`2^53` is returned unrounded; otherwise it is rounded to the nearest 53-bit
significand, ties to even. -/
def mulNatDouble (w : Nat) (x : FloatVal) : FloatVal :=
  let p := w * x.1
  if p < 2 ^ 53 then (p, x.2)
  else
    let s := mulShift p 1200 0
    if 2 ^ 52 * 2 ^ s ≤ p ∧ p < 2 ^ 53 * 2 ^ s then
      (roundNearestEven p (2 ^ s), x.2 + s)
    else (p, x.2)

/-- Exact value comparison of two `FloatVal`s. -/
def leDouble (x y : FloatVal) : Bool :=
  decide (x.1 * 2 ^ (x.2 - min x.2 y.2).toNat ≤ y.1 * 2 ^ (y.2 - min x.2 y.2).toNat)

/-- `Math.min` on doubles. -/
def minDouble (x y : FloatVal) : FloatVal :=
  if leDouble x y then x else y

/-- `Math.floor` of a nonnegative double. -/
def floorDouble (x : FloatVal) : Nat :=
  if 0 ≤ x.2 then x.1 * 2 ^ x.2.toNat else x.1 / 2 ^ (-x.2).toNat

/-- The source's `ratio = Math.min(M / imgWidth, M / imgHeight)`: the two
correctly rounded binary64 quotients, compared exactly. -/
def clampRatio (imgWidth imgHeight : Nat) : FloatVal :=
  minDouble (divDouble MAX_CANVAS_DIMENSION imgWidth)
            (divDouble MAX_CANVAS_DIMENSION imgHeight)

/-- The first clamp of `getOptimalCanvasSize`: when either dimension
exceeds `MAX_CANVAS_DIMENSION`, both become
`Math.floor(dim * ratio)` of the correctly rounded binary64 product. -/
def dimensionClamp (imgWidth imgHeight : Nat) : Nat × Nat :=
  if MAX_CANVAS_DIMENSION < imgWidth ∨ MAX_CANVAS_DIMENSION < imgHeight then
    (floorDouble (mulNatDouble imgWidth (clampRatio imgWidth imgHeight)),
     floorDouble (mulNatDouble imgHeight (clampRatio imgWidth imgHeight)))
  else (imgWidth, imgHeight)

/-- The second clamp of `getOptimalCanvasSize`: when the (integer) area
still exceeds `MAX_CANVAS_AREA`, scale by `sqrt(A / (w * h))` and floor.
This branch is proved unreachable below (the first clamp already bounds
both dimensions by `M` and `A = M * M`), so its arithmetic is idealized as
the exact `Nat.sqrt (d * d * A / (w * h)) = floor (d * sqrt (A / (w * h)))`. -/
def areaClamp (s : Nat × Nat) : Nat × Nat :=
  if MAX_CANVAS_AREA < s.1 * s.2 then
    (Nat.sqrt (s.1 * s.1 * MAX_CANVAS_AREA / (s.1 * s.2)),
     Nat.sqrt (s.2 * s.2 * MAX_CANVAS_AREA / (s.1 * s.2)))
  else s

/-- `getOptimalCanvasSize(imgWidth, imgHeight)`, with the source's
double-precision arithmetic modelled exactly (53-bit round-to-nearest,
ties-to-even, unbounded exponent — identical to binary64 in the absence of
overflow/underflow, which cannot occur here). -/
def getOptimalCanvasSize (imgWidth imgHeight : Nat) : Nat × Nat :=
  areaClamp (dimensionClamp imgWidth imgHeight)

/-! ## Watermark renderer (lines 494-557) -/

/-- Environment-determined real quantities of the drawing code, supplied as
exact rationals: `Math.cos(angle)`, `Math.sin(angle)`,
`Math.cos(angle + π/2)`, `Math.sin(angle + π/2)` for the fixed
`angle = -π/6`, the surface diagonal `Math.sqrt(w² + h²)`, and the measured
width of `"ToruTora     "` in the chosen font. -/
structure RenderEnv where
  cosA : ℚ
  sinA : ℚ
  cosPerp : ℚ
  sinPerp : ℚ
  diag : ℚ
  textWidth : ℚ
deriving DecidableEq

/-- An anchor at which the watermark text is drawn (rotated by the fixed
angle). -/
structure Placement where
  x : ℚ
  y : ℚ
deriving DecidableEq

/-- The drawn artifact: the clamped surface with the source bitmap scaled to
fill it, plus the overlay parameters and the list of text anchors. -/
structure RenderedArtifact where
  width : Nat
  height : Nat
  bitmap : Nat
  text : String
  fontSize : ℚ
  strokeLineWidth : ℚ
  placements : List Placement
deriving DecidableEq

/-- Integer range `lo, lo+1, ..., hi`. -/
def intRangeIncl (lo hi : ℤ) : List ℤ :=
  (List.range (hi - lo + 1).toNat).map (fun i => lo + (i : ℤ))

/-- The watermark drawing of `img.onload`: clamp the surface, draw the
bitmap, then place `"ToruTora"` along parallel lines.  Font size
`max(w * 0.05, 24)`, line spacing `max(h * 0.15, 80)`,
`numLines = ceil(diagonal / lineSpacing) + 6`, lines indexed
`-floor(numLines / 2) .. floor(numLines / 2)`, line length
`diagonal * 1.5`, `textCount = floor(lineLength / textWidth) + 2`, and each
anchor kept only within 100 px of the surface bounds.  The caller label
`alt` is a parameter (the code assigns it to `img.alt`) but no drawing step
reads it. -/
def drawWatermarked (env : RenderEnv) (bitmap : Nat) (imgW imgH : Nat)
    (alt : String) : RenderedArtifact :=
  let wh := getOptimalCanvasSize imgW imgH
  let w := wh.1
  let h := wh.2
  let _ := alt
  let fontSize : ℚ := max ((w : ℚ) * (5 / 100)) 24
  let lineSpacing : ℚ := max ((h : ℚ) * (15 / 100)) 80
  let numLines : ℤ := ⌈env.diag / lineSpacing⌉ + 6
  let half : ℤ := ⌊(numLines : ℚ) / 2⌋
  let lineLength : ℚ := env.diag * (3 / 2)
  let textCount : ℤ := ⌊lineLength / env.textWidth⌋ + 2
  let centerX : ℚ := (w : ℚ) / 2
  let centerY : ℚ := (h : ℚ) / 2
  let placements :=
    (intRangeIncl (-half) half).flatMap fun lineIndex =>
      let offsetX := (lineIndex : ℚ) * lineSpacing * env.cosPerp
      let offsetY := (lineIndex : ℚ) * lineSpacing * env.sinPerp
      (List.range textCount.toNat).filterMap fun textIndex =>
        let progress : ℚ := ((textIndex : ℚ) - (textCount : ℚ) / 2) / (textCount : ℚ)
        let x := centerX + offsetX + progress * lineLength * env.cosA
        let y := centerY + offsetY + progress * lineLength * env.sinA
        if -100 ≤ x ∧ x ≤ (w : ℚ) + 100 ∧ -100 ≤ y ∧ y ≤ (h : ℚ) + 100 then
          some ⟨x, y⟩
        else none
  { width := w, height := h, bitmap := bitmap, text := "ToruTora",
    fontSize := fontSize, strokeLineWidth := 3, placements := placements }

/-! ## Lemmas about trimming -/

theorem deleteAll_eq_filter (ks : List String) (m : CacheStore) :
    deleteAll m ks = m.filter (fun e => decide (e.1 ∉ ks)) := by
  induction ks generalizing m with
  | nil => simp [deleteAll]
  | cons k t ih =>
    have h1 : deleteAll m (k :: t) = deleteAll (mapDelete m k) t := rfl
    rw [h1, ih, mapDelete, List.filter_filter]
    refine List.filter_congr (fun e _ => ?_)
    by_cases hk : e.1 = k <;> by_cases ht : e.1 ∈ t <;> simp [hk, ht]

theorem oldestRemoval_refl (m : CacheStore) : oldestRemoval m m 0 := by
  refine ⟨[], rfl, List.sorted_nil, by simp, by simp, by simp⟩

theorem oldestRemoval_length {m r : CacheStore} {k : Nat}
    (h : oldestRemoval m r k) : r.length = m.length - k := by
  obtain ⟨del, hlen, -, hperm, -, -⟩ := h
  have := hperm.length_eq
  rw [List.length_append, hlen] at this
  omega

theorem removeOldest_oldestRemoval (k : Nat) (m : CacheStore)
    (hnd : keysNodup m) (hk : k ≤ m.length) :
    oldestRemoval m (removeOldest k m) k := by
  classical
  have hperm : (List.insertionSort byAge m).Perm m := List.perm_insertionSort byAge m
  have hsort : List.Sorted byAge (List.insertionSort byAge m) :=
    List.sorted_insertionSort byAge m
  set sorted := List.insertionSort byAge m with hsorteddef
  set del := sorted.take k with hdeldef
  set keep := sorted.drop k with hkeepdef
  have hsplit : del ++ keep = sorted := List.take_append_drop k sorted
  have hdlen : del.length = k := by
    rw [hdeldef, List.length_take]
    exact Nat.min_eq_left (by rw [hperm.length_eq]; exact hk)
  set K := del.map (fun e => e.1) with hKdef
  set p : String × CachedImage → Bool := fun e => decide (e.1 ∉ K) with hpdef
  have hro : removeOldest k m = m.filter p := by
    rw [removeOldest, deleteAll_eq_filter]
  -- keys of the sorted list are still distinct
  have hkeysnd : (sorted.map (fun e => e.1)).Nodup := by
    have h := hperm.map (fun e : String × CachedImage => e.1)
    exact h.nodup_iff.mpr hnd
  have hkeysplit : del.map (fun e => e.1) ++ keep.map (fun e => e.1)
      = sorted.map (fun e => e.1) := by
    rw [← List.map_append, hsplit]
  have hdisj : ∀ e ∈ keep, e.1 ∉ K := by
    intro e he hmem
    rw [← hkeysplit] at hkeysnd
    rcases List.nodup_append.mp hkeysnd with ⟨-, -, hdis⟩
    exact hdis hmem (List.mem_map_of_mem _ he)
  have hdelfilter : del.filter p = [] := by
    refine List.filter_eq_nil_iff.mpr (fun d hd => ?_)
    simp only [hpdef, hKdef]
    simp [List.mem_map_of_mem (fun e => e.1) hd]
  have hkeepfilter : keep.filter p = keep := by
    refine List.filter_eq_self.mpr (fun e he => ?_)
    simp only [hpdef]
    simpa using hdisj e he
  have hfiltersplit : sorted.filter p = keep := by
    rw [← hsplit, List.filter_append, hdelfilter, hkeepfilter, List.nil_append]
  have hrkeep : (removeOldest k m).Perm keep := by
    rw [hro, ← hfiltersplit]
    exact (hperm.filter p).symm
  have hmemkeep : ∀ e ∈ removeOldest k m, e ∈ keep :=
    fun e he => hrkeep.mem_iff.mp he
  have hsortsplit : List.Sorted byAge (del ++ keep) := by rw [hsplit]; exact hsort
  have hcross : ∀ d ∈ del, ∀ e ∈ keep, byAge d e :=
    (List.pairwise_append.mp hsortsplit).2.2
  refine ⟨del, hdlen, ?_, ?_, ?_, ?_⟩
  · exact List.Pairwise.sublist (List.take_sublist k sorted) hsort
  · have h1 : m.Perm (del ++ keep) := by rw [hsplit]; exact hperm.symm
    exact h1.trans (hrkeep.symm.append_left del)
  · exact fun d hd e he => hcross d hd e (hmemkeep e he)
  · intro hts d hd e he
    have hle : d.2.timestamp ≤ e.2.timestamp := hcross d hd e (hmemkeep e he)
    -- entries themselves are distinct, so distinct timestamps give strictness
    have hmnd : m.Nodup := List.Nodup.of_map _ hnd
    have hsortednd : sorted.Nodup := hperm.nodup_iff.mpr hmnd
    have hdm : d ∈ m := hperm.mem_iff.mp (hsplit ▸ List.mem_append_left keep hd)
    have hek : e ∈ keep := hmemkeep e he
    have hem : e ∈ m := hperm.mem_iff.mp (hsplit ▸ List.mem_append_right del hek)
    have hne : d ≠ e := by
      rw [← hsplit] at hsortednd
      rcases List.nodup_append.mp hsortednd with ⟨-, -, hdis⟩
      intro hcontra
      exact hdis hd (hcontra ▸ hek)
    have htsne : d.2.timestamp ≠ e.2.timestamp := by
      intro hcontra
      exact hne (List.inj_on_of_nodup_map hts hdm hem hcontra)
    omega

theorem cleanupOldCacheWith_of_le {maxSize : Nat} {m : CacheStore}
    (h : m.length ≤ maxSize) : cleanupOldCacheWith maxSize m = m := by
  simp [cleanupOldCacheWith, h]

theorem cleanupOldCacheWith_oldestRemoval (maxSize : Nat) (m : CacheStore)
    (hnd : keysNodup m) :
    oldestRemoval m (cleanupOldCacheWith maxSize m) (m.length - min m.length maxSize) := by
  by_cases h : m.length ≤ maxSize
  · rw [cleanupOldCacheWith_of_le h]
    have h0 : m.length - min m.length maxSize = 0 := by omega
    rw [h0]
    exact oldestRemoval_refl m
  · have hmin : min m.length maxSize = maxSize := by omega
    rw [hmin, cleanupOldCacheWith, if_neg h]
    exact removeOldest_oldestRemoval _ m hnd (by omega)

theorem cleanupOldCacheWith_length_le (maxSize : Nat) (m : CacheStore)
    (hnd : keysNodup m) : (cleanupOldCacheWith maxSize m).length ≤ maxSize := by
  have h := oldestRemoval_length (cleanupOldCacheWith_oldestRemoval maxSize m hnd)
  omega

theorem checkMemoryPressure_of_le {c : Bool} {m : CacheStore}
    (h : m.length ≤ MAX_CACHE_SIZE) : checkMemoryPressure c m = m := by
  cases c with
  | false => rfl
  | true => simp [checkMemoryPressure, cleanupOldCache, cleanupOldCacheWith_of_le h]

theorem mul_five_div_ten_le (n : Nat) : n * 5 / 10 ≤ n := by
  have h1 : n * 5 / 10 ≤ n * 10 / 10 := Nat.div_le_div_right (by omega)
  have h2 : n * 10 / 10 = n := Nat.mul_div_cancel n (by omega)
  omega

theorem mul_three_div_ten_le (n : Nat) : n * 3 / 10 ≤ n := by
  have h1 : n * 3 / 10 ≤ n * 10 / 10 := Nat.div_le_div_right (by omega)
  have h2 : n * 10 / 10 = n := Nat.mul_div_cancel n (by omega)
  omega

/-! ## Concrete stores used when settling the eviction claims -/

/-- Twelve entries, inserted and stamped in order 1..12. -/
def c4Store : CacheStore :=
  [("k01", ⟨101, 1⟩), ("k02", ⟨102, 2⟩), ("k03", ⟨103, 3⟩), ("k04", ⟨104, 4⟩),
   ("k05", ⟨105, 5⟩), ("k06", ⟨106, 6⟩), ("k07", ⟨107, 7⟩), ("k08", ⟨108, 8⟩),
   ("k09", ⟨109, 9⟩), ("k10", ⟨110, 10⟩), ("k11", ⟨111, 11⟩), ("k12", ⟨112, 12⟩)]

/-- Sixteen entries — exactly 80 % of the tiered capacity 20. -/
def c3Store : CacheStore :=
  [("a01", ⟨201, 1⟩), ("a02", ⟨202, 2⟩), ("a03", ⟨203, 3⟩), ("a04", ⟨204, 4⟩),
   ("a05", ⟨205, 5⟩), ("a06", ⟨206, 6⟩), ("a07", ⟨207, 7⟩), ("a08", ⟨208, 8⟩),
   ("a09", ⟨209, 9⟩), ("a10", ⟨210, 10⟩), ("a11", ⟨211, 11⟩), ("a12", ⟨212, 12⟩),
   ("a13", ⟨213, 13⟩), ("a14", ⟨214, 14⟩), ("a15", ⟨215, 15⟩), ("a16", ⟨216, 16⟩)]

/-! ## Claim C4 -/

/-- Claim C4: after any capacity sweep the store holds at most `maxSize`
entries, and the sweep removed exactly the oldest `size - min size maxSize`
entries: they come off in nondecreasing timestamp order, every removed entry
is at least as old as every retained one (strictly older when timestamps are
distinct), so the retained entries are the `maxSize` most recently
written. -/
theorem c4_capacity_sweep (maxSize : Nat) (m : CacheStore) (hnd : keysNodup m) :
    (cleanupOldCacheWith maxSize m).length ≤ maxSize ∧
    oldestRemoval m (cleanupOldCacheWith maxSize m) (m.length - min m.length maxSize) :=
  ⟨cleanupOldCacheWith_length_le maxSize m hnd,
   cleanupOldCacheWith_oldestRemoval maxSize m hnd⟩

/-- Witness for C4: twelve puts at capacity 10 — the sweep keeps exactly the
ten most recently written entries (timestamps 3..12). -/
theorem c4_capacity_sweep_witness :
    keysNodup c4Store ∧
    cleanupOldCacheWith 10 c4Store =
      [("k03", ⟨103, 3⟩), ("k04", ⟨104, 4⟩), ("k05", ⟨105, 5⟩), ("k06", ⟨106, 6⟩),
       ("k07", ⟨107, 7⟩), ("k08", ⟨108, 8⟩), ("k09", ⟨109, 9⟩), ("k10", ⟨110, 10⟩),
       ("k11", ⟨111, 11⟩), ("k12", ⟨112, 12⟩)] ∧
    ((cleanupOldCacheWith 10 c4Store).length ≤ 10 ∧
      oldestRemoval c4Store (cleanupOldCacheWith 10 c4Store)
        (c4Store.length - min c4Store.length 10)) :=
  ⟨by decide, by decide, c4_capacity_sweep 10 c4Store (by decide)⟩

/-! ## Claim C3 -/

/-- Claim C3 (amended): the pressure monitor removes nothing on a
non-constrained engine; on a constrained engine it acts only strictly above
the tier thresholds — above 80 % of capacity it trims to capacity, in the
(60 %, 80 %] band it drops the oldest `floor(size * 0.5)` entries, in the
(40 %, 60 %] band the oldest `floor(size * 0.3)`, and at or below 40 % it
removes nothing. -/
theorem c3_tiered_pressure (m : CacheStore) (hnd : keysNodup m) :
    (∀ m0 : CacheStore, P4.checkMemoryPressure false m0 = m0) ∧
    (10 * m.length ≤ 4 * P4.MAX_CACHE_SIZE → P4.checkMemoryPressure true m = m) ∧
    (8 * P4.MAX_CACHE_SIZE < 10 * m.length →
      (P4.checkMemoryPressure true m).length ≤ P4.MAX_CACHE_SIZE ∧
      oldestRemoval m (P4.checkMemoryPressure true m)
        (m.length - min m.length P4.MAX_CACHE_SIZE)) ∧
    (6 * P4.MAX_CACHE_SIZE < 10 * m.length → 10 * m.length ≤ 8 * P4.MAX_CACHE_SIZE →
      oldestRemoval m (P4.checkMemoryPressure true m) (m.length * 5 / 10)) ∧
    (4 * P4.MAX_CACHE_SIZE < 10 * m.length → 10 * m.length ≤ 6 * P4.MAX_CACHE_SIZE →
      oldestRemoval m (P4.checkMemoryPressure true m) (m.length * 3 / 10)) := by
  refine ⟨fun m0 => rfl, ?_, ?_, ?_, ?_⟩
  · intro h
    simp only [P4.checkMemoryPressure, if_true]
    rw [if_neg (by omega), if_neg (by omega), if_neg (by omega)]
  · intro h
    simp only [P4.checkMemoryPressure, if_true]
    rw [if_pos (by omega)]
    exact ⟨cleanupOldCacheWith_length_le _ m hnd,
      cleanupOldCacheWith_oldestRemoval _ m hnd⟩
  · intro h1 h2
    simp only [P4.checkMemoryPressure, if_true]
    rw [if_neg (by omega), if_pos (by omega)]
    exact removeOldest_oldestRemoval _ m hnd (mul_five_div_ten_le _)
  · intro h1 h2
    simp only [P4.checkMemoryPressure, if_true]
    rw [if_neg (by omega), if_neg (by omega), if_pos (by omega)]
    exact removeOldest_oldestRemoval _ m hnd (mul_three_div_ten_le _)

/-- Counterexample for C3 as stated: at occupancy exactly 80 % of capacity
(16 of 20 entries) the claim prescribes the trim-to-capacity tier, which
removes nothing; the code takes the 50 %-removal tier instead (its 80 % test
is strict) and halves the store to 8 entries. -/
theorem c3_tiered_pressure_counterexample :
    c3Store.length = 16 ∧
    10 * c3Store.length = 8 * P4.MAX_CACHE_SIZE ∧
    (P4.checkMemoryPressureSpec true c3Store).length = 16 ∧
    (P4.checkMemoryPressure true c3Store).length = 8 := by decide

/-- Witness for C3 (amended): 16 entries fall in the (60 %, 80 %] band and
the monitor removes the oldest `16 * 5 / 10 = 8`. -/
theorem c3_tiered_pressure_witness :
    keysNodup c3Store ∧
    oldestRemoval c3Store (P4.checkMemoryPressure true c3Store)
      (c3Store.length * 5 / 10) :=
  ⟨by decide, (c3_tiered_pressure c3Store (by decide)).2.2.2.1 (by decide) (by decide)⟩

/-! ## Lemmas about the load flow -/

theorem getCacheKey_left_inj {p f alt : String}
    (h : getCacheKey p alt = getCacheKey f alt) : p = f := by
  have hd := congrArg String.data h
  rw [getCacheKey, getCacheKey, String.data_append, String.data_append,
      String.data_append, String.data_append] at hd
  exact String.ext (List.append_cancel_right (List.append_cancel_right hd))

theorem getCacheKey_right_inj {src a b : String}
    (h : getCacheKey src a = getCacheKey src b) : a = b := by
  have hd := congrArg String.data h
  rw [getCacheKey, getCacheKey, String.data_append, String.data_append,
      String.data_append, String.data_append] at hd
  exact String.ext (List.append_cancel_left hd)

theorem mapGet_singleton_self (k : String) (c : CachedImage) :
    mapGet [(k, c)] k = some c := by
  simp [mapGet, List.find?]

theorem mapGet_singleton_ne {k k2 : String} (c : CachedImage) (h : k2 ≠ k) :
    mapGet [(k, c)] k2 = none := by
  have hb : (k == k2) = false := beq_eq_false_iff_ne.mpr (Ne.symm h)
  simp [mapGet, List.find?, hb]

theorem checkMemoryPressure_nil (c : Bool) : checkMemoryPressure c [] = [] :=
  checkMemoryPressure_of_le (by simp [MAX_CACHE_SIZE])

theorem lookupPhase_nil (constrained : Bool) (grayCheck : Nat → Bool)
    (alt : String) (now : Nat) (imageSrc : String) :
    lookupPhase constrained grayCheck alt now [] imageSrc = ([], none) := by
  simp [lookupPhase, checkMemoryPressure_nil, mapDelete, mapGet]

theorem cacheSave_nil (key : String) (a now : Nat) :
    cacheSave [] key a now = [(key, ⟨a, now⟩)] := by
  simp [cacheSave, mapSet, mapHas, cleanupExpiredCache, cleanupOldCache,
    cleanupOldCacheWith, MAX_CACHE_SIZE, List.filter]

theorem attemptStep_success_nil (P : LoadParams)
    (retry : Option (CacheStore → String → LoadResult)) (src : String) (img : Nat)
    (h : P.loads (getLowResUrl src) = .success img) :
    attemptStep P retry [] src =
      { store := cacheSave [] (getCacheKey src P.alt) (P.render img) P.now,
        state := .Displaying (P.render img),
        visited := [.Displaying (P.render img)], attempts := [src],
        readyCalls := 1, errorCalls := 0 } := by
  rw [attemptStep, lookupPhase_nil, h]

theorem attemptStep_timeout_nil (P : LoadParams)
    (retry : Option (CacheStore → String → LoadResult)) (src : String)
    (h : P.loads (getLowResUrl src) = .timeout) :
    attemptStep P retry [] src =
      { store := [], state := .ErrState, visited := [.ErrState],
        attempts := [src], readyCalls := 0, errorCalls := 1 } := by
  rw [attemptStep, lookupPhase_nil, h]

theorem attemptStep_decodeError_fallback (P : LoadParams)
    (doRetry : CacheStore → String → LoadResult) (src f : String)
    (hf : P.fallbackSrc = some f) (hfe : f ≠ "") (hne : src ≠ f)
    (h : P.loads (getLowResUrl src) = .decodeError) :
    attemptStep P (some doRetry) [] src =
      { doRetry [] f with attempts := src :: (doRetry [] f).attempts } := by
  rw [attemptStep, lookupPhase_nil, h, hf]
  simp [mapDelete, hfe, hne]

theorem attemptStep_decodeError_exhausted_nil (P : LoadParams)
    (retry : Option (CacheStore → String → LoadResult)) (src : String)
    (h : P.loads (getLowResUrl src) = .decodeError)
    (hfb : P.fallbackSrc = none ∨ P.fallbackSrc = some src ∨
      P.fallbackSrc = some "" ∨ retry = none) :
    attemptStep P retry [] src =
      { store := [], state := .ErrState, visited := [.ErrState],
        attempts := [src], readyCalls := 0, errorCalls := 1 } := by
  rw [attemptStep, lookupPhase_nil, h]
  simp only [mapDelete, List.filter_nil, ite_self]
  rcases hfb with hfb | hfb | hfb | hfb
  · rw [hfb]
    cases retry <;> rfl
  · rw [hfb]
    cases retry with
    | none => rfl
    | some doRetry => simp
  · rw [hfb]
    cases retry with
    | none => rfl
    | some doRetry => simp
  · subst hfb
    cases P.fallbackSrc <;> rfl

/-! ## Claim C1 -/

/-- Claim C1 (amended): when the primary locator fails with a decode error
and a different, nonempty fallback locator decodes successfully, the
instance ends Displaying the fallback-derived artifact, the Error state is
never entered, and the cache afterwards holds the artifact under the
fallback key `getCacheKey(fallback, label)` — not under the original
primary key, which stays absent. -/
theorem c1_fallback_success (P : LoadParams) (p f : String) (img : Nat)
    (hf : P.fallbackSrc = some f) (hfe : f ≠ "") (hne : p ≠ f)
    (hp : P.loads (getLowResUrl p) = .decodeError)
    (hfl : P.loads (getLowResUrl f) = .success img) :
    (getCachedOrCreateImage P [] p).state = .Displaying (P.render img) ∧
    DState.ErrState ∉ (getCachedOrCreateImage P [] p).visited ∧
    mapGet (getCachedOrCreateImage P [] p).store (getCacheKey f P.alt)
      = some ⟨P.render img, P.now⟩ ∧
    mapGet (getCachedOrCreateImage P [] p).store (getCacheKey p P.alt) = none ∧
    (getCachedOrCreateImage P [] p).attempts = [p, f] := by
  have hrun : getCachedOrCreateImage P [] p =
      { store := cacheSave [] (getCacheKey f P.alt) (P.render img) P.now,
        state := .Displaying (P.render img),
        visited := [.Displaying (P.render img)], attempts := [p, f],
        readyCalls := 1, errorCalls := 0 } := by
    rw [getCachedOrCreateImage, runAttempt,
        attemptStep_decodeError_fallback P (runAttempt P 0) p f hf hfe hne hp,
        runAttempt, attemptStep_success_nil P none f img hfl]
  have hkne : getCacheKey p P.alt ≠ getCacheKey f P.alt :=
    fun hcontra => hne (getCacheKey_left_inj hcontra)
  rw [hrun]
  refine ⟨rfl, by simp, ?_, ?_, rfl⟩
  · rw [cacheSave_nil, mapGet_singleton_self]
  · rw [cacheSave_nil, mapGet_singleton_ne _ hkne]

/-- Load environment of the C1 counterexample: primary locator `p` fails to
decode, fallback `f` decodes to bitmap 7, label `a`. -/
def c1P : LoadParams :=
  { constrained := false, grayCheck := fun _ => false,
    loads := fun s => if s = "f" then .success 7 else .decodeError,
    render := fun b => b + 1, alt := "a", fallbackSrc := some "f", now := 0 }

/-- Counterexample for C1 as stated: in the fallback-success scenario the
display ends up Displaying the fallback-derived artifact, but the cache
entry sits under the fallback key `f|a`; there is no entry under the
original primary key `p|a`, contrary to the claim. -/
theorem c1_fallback_success_counterexample :
    (getCachedOrCreateImage c1P [] "p").state = .Displaying 8 ∧
    mapGet (getCachedOrCreateImage c1P [] "p").store (getCacheKey "f" "a")
      = some ⟨8, 0⟩ ∧
    mapGet (getCachedOrCreateImage c1P [] "p").store (getCacheKey "p" "a")
      = none := by decide

/-- Witness for C1 (amended). -/
theorem c1_fallback_success_witness :
    c1P.fallbackSrc = some "f" ∧
    ((getCachedOrCreateImage c1P [] "p").state = .Displaying (c1P.render 7) ∧
      DState.ErrState ∉ (getCachedOrCreateImage c1P [] "p").visited ∧
      mapGet (getCachedOrCreateImage c1P [] "p").store (getCacheKey "f" c1P.alt)
        = some ⟨c1P.render 7, c1P.now⟩ ∧
      mapGet (getCachedOrCreateImage c1P [] "p").store (getCacheKey "p" c1P.alt)
        = none ∧
      (getCachedOrCreateImage c1P [] "p").attempts = ["p", "f"]) :=
  ⟨by decide, c1_fallback_success c1P "p" "f" 7 (by decide) (by decide) (by decide)
    (by decide) (by decide)⟩

/-! ## Claim C2 -/

/-- Claim C2 (amended): a decode error on the primary locator triggers
exactly one retry against a supplied, different, nonempty fallback, and only
exhaustion of that attempt (or the absence of such a fallback) puts the
instance in the Error state; a timeout on the primary, however, does not
trigger the fallback retry — the timeout handler reports the failure
directly and the instance transitions to Error even when a usable fallback
was supplied. -/
theorem c2_retry_policy (P : LoadParams) (p : String) :
    (∀ f, P.fallbackSrc = some f → f ≠ "" → p ≠ f →
      P.loads (getLowResUrl p) = .decodeError →
      (getCachedOrCreateImage P [] p).attempts = [p, f] ∧
      (P.loads (getLowResUrl f) = .decodeError →
        (getCachedOrCreateImage P [] p).state = .ErrState)) ∧
    (P.loads (getLowResUrl p) = .decodeError →
      (P.fallbackSrc = none ∨ P.fallbackSrc = some p ∨ P.fallbackSrc = some "") →
      (getCachedOrCreateImage P [] p).attempts = [p] ∧
      (getCachedOrCreateImage P [] p).state = .ErrState) ∧
    (P.loads (getLowResUrl p) = .timeout →
      (getCachedOrCreateImage P [] p).attempts = [p] ∧
      (getCachedOrCreateImage P [] p).state = .ErrState) := by
  refine ⟨?_, ?_, ?_⟩
  · intro f hf hfe hne hp
    rw [getCachedOrCreateImage, runAttempt,
      attemptStep_decodeError_fallback P (runAttempt P 0) p f hf hfe hne hp]
    constructor
    · cases hff : P.loads (getLowResUrl f) with
      | success img => rw [runAttempt, attemptStep_success_nil P none f img hff]
      | decodeError =>
        rw [runAttempt,
          attemptStep_decodeError_exhausted_nil P none f hff (Or.inr (Or.inr (Or.inr rfl)))]
      | timeout => rw [runAttempt, attemptStep_timeout_nil P none f hff]
    · intro hff
      rw [runAttempt,
        attemptStep_decodeError_exhausted_nil P none f hff (Or.inr (Or.inr (Or.inr rfl)))]
  · intro hp hfb
    rw [getCachedOrCreateImage, runAttempt,
      attemptStep_decodeError_exhausted_nil P (some (runAttempt P 0)) p hp
        (by rcases hfb with h | h | h
            · exact Or.inl h
            · exact Or.inr (Or.inl h)
            · exact Or.inr (Or.inr (Or.inl h)))]
    exact ⟨rfl, rfl⟩
  · intro hp
    rw [getCachedOrCreateImage, runAttempt, attemptStep_timeout_nil P (some (runAttempt P 0)) p hp]
    exact ⟨rfl, rfl⟩

/-- Load environment of the C2 counterexample: primary locator `p` times
out, fallback `f` would decode to bitmap 5. -/
def c2P : LoadParams :=
  { constrained := false, grayCheck := fun _ => false,
    loads := fun s => if s = "f" then .success 5 else .timeout,
    render := fun b => b, alt := "a", fallbackSrc := some "f", now := 0 }

/-- Counterexample for C2 as stated: the primary times out while a
different, working fallback is supplied, yet the instance goes to Error
after the single primary attempt — the fallback is never tried, although the
claim says the Timeout path triggers the fallback retry just as the
DecodeError path does. -/
theorem c2_retry_policy_counterexample :
    c2P.fallbackSrc = some "f" ∧
    c2P.loads (getLowResUrl "f") = .success 5 ∧
    c2P.loads (getLowResUrl "p") = .timeout ∧
    (getCachedOrCreateImage c2P [] "p").state = .ErrState ∧
    (getCachedOrCreateImage c2P [] "p").attempts = ["p"] := by decide

/-- Load environment exercising the decode-error path for the C2 witness. -/
def c2Q : LoadParams :=
  { constrained := false, grayCheck := fun _ => false,
    loads := fun s => if s = "f" then .success 7 else .decodeError,
    render := fun b => b + 1, alt := "a", fallbackSrc := some "f", now := 0 }

/-- Witness for C2 (amended), on the decode-error path. -/
theorem c2_retry_policy_witness :
    c2Q.loads (getLowResUrl "p") = .decodeError ∧
    ((getCachedOrCreateImage c2Q [] "p").attempts = ["p", "f"] ∧
      (c2Q.loads (getLowResUrl "f") = .decodeError →
        (getCachedOrCreateImage c2Q [] "p").state = .ErrState)) :=
  ⟨by decide, (c2_retry_policy c2Q "p").1 "f" (by decide) (by decide) (by decide)
    (by decide)⟩

/-! ## Claim C5 -/

/-- Claim C5 concerns a code bug.  The guard
`imageId && currentImageId && imageId !== currentImageId` compares two
values that the handler closure captured together when the load was issued;
for every load issued while its request was current the captured pair is
equal, so the guard never fires for it (first conjunct, for any captured
identity).  Concretely: a load for key A is issued while A is current
(captured pair `(some A, some A)`); the instance is then superseded and
comes to display the B content 20; when the stale A `onload` finally
arrives it is not suppressed — it draws the A artifact 10 into the shared
canvas and clears loading, so the display surface shows the superseded A
content, which the claim forbids. -/
theorem c5_stale_guard_never_fires :
    (∀ v : Option String, isStaleOutcome v v = false) ∧
    applyOutcome (some "A") (some "A") (.onloadSig 10)
        (CState.mk (some 20) false false (some "B"))
      = CState.mk (some 10) false false (some "B") := by
  constructor
  · intro v
    cases v with
    | none => rfl
    | some a => simp [isStaleOutcome]
  · decide

/-! ## Claim C6 -/

/-- Claim C6 concerns a code bug: on the polling platform the authoritative
component file keeps no deduplication flag and a native `onload` does not
stop the 100 ms probe, so after a successful native completion the next
probe tick (`img.complete` with positive natural dimensions) invokes the
success handler a second time — the handler body, and with it the caller
`onLoadComplete`, runs twice for the one attempt instead of exactly
once. -/
theorem c6_polling_double_fire :
    (runPoll [.nativeLoad, .pollTick true true]).successFires = 2 ∧
    (runPoll [.nativeLoad, .pollTick true true]).errorFires = 0 := by decide

/-! ## Claim C7 -/

/-- Claim C7 (amended): in the priority-load variant the in-flight registry
deduplicates — a request for a key whose pipeline is pending attaches to the
registered promise without starting a new pipeline, and a fresh request
registers the promise that an immediately following request for the same key
receives, so both callers are notified by the settlement of the single
pipeline. -/
theorem c7_inflight_dedup (st : FlightState) (src alt : String) (hdl : Nat) :
    (mapHas st.cache (getCacheKey src alt) = false →
      inflightLookup st.inflight (getCacheKey src alt) = some hdl →
      loadImageWithPriority st src alt = (.attached hdl, st)) ∧
    (mapHas st.cache (getCacheKey src alt) = false →
      inflightLookup st.inflight (getCacheKey src alt) = none →
      (loadImageWithPriority st src alt).1 = .started st.nextHandle ∧
      (loadImageWithPriority (loadImageWithPriority st src alt).2 src alt).1
        = .attached st.nextHandle) := by
  constructor
  · intro hc hin
    simp [loadImageWithPriority, hc, hin]
  · intro hc hin
    have h1 : loadImageWithPriority st src alt =
        (.started st.nextHandle,
         { st with inflight := st.inflight ++ [(getCacheKey src alt, st.nextHandle)],
                   nextHandle := st.nextHandle + 1 }) := by
      simp [loadImageWithPriority, hc, hin]
    refine ⟨by rw [h1], ?_⟩
    rw [h1]
    have h3 : st.inflight.find? (fun e => e.1 == getCacheKey src alt) = none := by
      cases hfind : st.inflight.find? (fun e => e.1 == getCacheKey src alt) with
      | none => rfl
      | some v =>
        rw [inflightLookup, hfind] at hin
        simp at hin
    have h2 : inflightLookup (st.inflight ++ [(getCacheKey src alt, st.nextHandle)])
        (getCacheKey src alt) = some st.nextHandle := by
      rw [inflightLookup, List.find?_append, h3]
      simp [List.find?]
    simp [loadImageWithPriority, hc, h2]

/-- Counterexample for C7 as stated: the `preloadImage` of the authoritative
component file checks only the cache of completed artifacts, so a second
preload for a key whose first pipeline has not yet settled starts a second
pipeline instead of attaching — two pipelines for one key. -/
theorem c7_inflight_dedup_counterexample :
    tsxTwoConcurrentPreloads "u" "a" = 2 := by decide

/-- Witness for C7 (amended): key `u|a` is in flight under promise handle 5;
a new request attaches to it and changes nothing. -/
theorem c7_inflight_dedup_witness :
    mapHas (FlightState.mk [] [("u|a", 5)] 6).cache (getCacheKey "u" "a") = false ∧
    loadImageWithPriority (FlightState.mk [] [("u|a", 5)] 6) "u" "a"
      = (.attached 5, FlightState.mk [] [("u|a", 5)] 6) :=
  ⟨by decide, (c7_inflight_dedup (FlightState.mk [] [("u|a", 5)] 6) "u" "a" 5).1
    (by decide) (by decide)⟩

/-! ## Claim C9 -/

theorem area_clamp_skip {w h : Nat} (hw : w ≤ MAX_CANVAS_DIMENSION)
    (hh : h ≤ MAX_CANVAS_DIMENSION) : ¬ (MAX_CANVAS_AREA < w * h) := by
  have := Nat.mul_le_mul hw hh
  simp only [MAX_CANVAS_AREA, MAX_CANVAS_DIMENSION] at *
  omega

theorem roundNearestEven_cases (a b : Nat) :
    roundNearestEven a b = a / b ∨ roundNearestEven a b = a / b + 1 := by
  unfold roundNearestEven
  split
  · exact Or.inr rfl
  · exact Or.inl rfl

theorem roundNearestEven_le (a b : Nat) (hb : 0 < b) :
    (roundNearestEven a b : ℚ) ≤ (a : ℚ) / b + 1 / 2 := by
  have hdm : b * (a / b) + a % b = a := Nat.div_add_mod a b
  have hlt : a % b < b := Nat.mod_lt a hb
  have hbq : (0 : ℚ) < (b : ℚ) := by exact_mod_cast hb
  have ha : (a : ℚ) = (b : ℚ) * ((a / b : Nat) : ℚ) + ((a % b : Nat) : ℚ) := by
    exact_mod_cast hdm.symm
  unfold roundNearestEven
  split
  · rename_i hcase
    have h2r : (b : ℚ) ≤ 2 * ((a % b : Nat) : ℚ) := by
      have hn : b ≤ 2 * (a % b) := by omega
      exact_mod_cast hn
    have h1 : ((a / b : Nat) : ℚ) + 1 / 2 ≤ (a : ℚ) / b := by
      rw [le_div_iff₀ hbq]
      nlinarith
    push_cast
    linarith
  · have hr0 : (0 : ℚ) ≤ ((a % b : Nat) : ℚ) := by positivity
    have hq : ((a / b : Nat) : ℚ) * b ≤ a := by nlinarith [ha]
    have h1 : ((a / b : Nat) : ℚ) ≤ (a : ℚ) / b := (le_div_iff₀ hbq).mpr hq
    linarith

theorem le_roundNearestEven (a b : Nat) (hb : 0 < b) :
    (a : ℚ) / b - 1 / 2 ≤ (roundNearestEven a b : ℚ) := by
  have hdm : b * (a / b) + a % b = a := Nat.div_add_mod a b
  have hlt : a % b < b := Nat.mod_lt a hb
  have hbq : (0 : ℚ) < (b : ℚ) := by exact_mod_cast hb
  have ha : (a : ℚ) = (b : ℚ) * ((a / b : Nat) : ℚ) + ((a % b : Nat) : ℚ) := by
    exact_mod_cast hdm.symm
  have hrb : ((a % b : Nat) : ℚ) < (b : ℚ) := by exact_mod_cast hlt
  unfold roundNearestEven
  split
  · have h1 : (a : ℚ) / b ≤ ((a / b : Nat) : ℚ) + 1 := by
      rw [div_le_iff₀ hbq]
      nlinarith
    push_cast
    linarith
  · rename_i hcase
    have h2r : 2 * ((a % b : Nat) : ℚ) ≤ (b : ℚ) := by
      have hn : 2 * (a % b) ≤ b := by omega
      exact_mod_cast hn
    have h1 : (a : ℚ) / b ≤ ((a / b : Nat) : ℚ) + 1 / 2 := by
      rw [div_le_iff₀ hbq]
      nlinarith
    linarith

theorem divShift_spec (a b : Nat) (fuel : Nat) :
    ∀ t : Nat, a * 2 ^ t < 2 ^ 53 * b →
      2 ^ 52 * b ≤ a * 2 ^ (t + fuel) →
      2 ^ 52 * b ≤ a * 2 ^ divShift a b fuel t ∧
        a * 2 ^ divShift a b fuel t < 2 ^ 53 * b := by
  induction fuel with
  | zero =>
    intro t hinv hsuf
    exact ⟨by simpa using hsuf, hinv⟩
  | succ n ih =>
    intro t hinv hsuf
    rw [divShift]
    split
    · rename_i hc
      exact ⟨hc, hinv⟩
    · rename_i hc
      push_neg at hc
      apply ih (t + 1)
      · have hdouble : a * 2 ^ (t + 1) = 2 * (a * 2 ^ t) := by ring
        have hp : (2 : Nat) ^ 53 * b = 2 * (2 ^ 52 * b) := by ring
        omega
      · have hidx : t + 1 + n = t + (n + 1) := by omega
        rw [hidx]
        exact hsuf

theorem mulShift_spec (p : Nat) (fuel : Nat) :
    ∀ s : Nat, 2 ^ 52 * 2 ^ s ≤ p →
      p < 2 ^ 53 * 2 ^ (s + fuel) →
      2 ^ 52 * 2 ^ mulShift p fuel s ≤ p ∧
        p < 2 ^ 53 * 2 ^ mulShift p fuel s := by
  induction fuel with
  | zero =>
    intro s hinv hsuf
    exact ⟨hinv, by simpa using hsuf⟩
  | succ n ih =>
    intro s hinv hsuf
    rw [mulShift]
    split
    · rename_i hc
      exact ⟨hinv, hc⟩
    · rename_i hc
      push_neg at hc
      apply ih (s + 1)
      · have hdouble : (2 : Nat) ^ 52 * 2 ^ (s + 1) = 2 ^ 53 * 2 ^ s := by ring
        omega
      · have hidx : s + 1 + n = s + (n + 1) := by omega
        rw [hidx]
        exact hsuf

theorem toRat_negExp (m t : Nat) : toRat (m, -(t : ℤ)) = (m : ℚ) / 2 ^ t := by
  simp [toRat, zpow_neg, zpow_natCast, div_eq_mul_inv]

theorem toRat_nonneg (x : FloatVal) : 0 ≤ toRat x := by
  unfold toRat
  positivity

theorem divDouble_spec (a b : Nat) (ha : 0 < a) (hb : 0 < b)
    (hab : a < 2 ^ 53 * b) (hsuf : 2 ^ 52 * b ≤ a * 2 ^ 1200) :
    ((1 : ℚ) - 1 / 2 ^ 53) * ((a : ℚ) / b) ≤ toRat (divDouble a b) ∧
    toRat (divDouble a b) ≤ ((1 : ℚ) + 1 / 2 ^ 53) * ((a : ℚ) / b) ∧
    0 < (divDouble a b).1 ∧ (divDouble a b).1 ≤ 2 ^ 53 := by
  unfold divDouble
  rw [if_neg (by omega)]
  have hts := divShift_spec a b 1200 0 (by simpa using hab) (by simpa using hsuf)
  rw [if_pos hts]
  obtain ⟨h1, h2⟩ := hts
  set t := divShift a b 1200 0 with htdef
  set A := a * 2 ^ t with hAdef
  -- integer bounds on the significand
  have hq_lb : 2 ^ 52 ≤ A / b := (Nat.le_div_iff_mul_le hb).mpr h1
  have hq_ub : A / b < 2 ^ 53 := Nat.div_lt_of_lt_mul (by omega)
  have hcases := roundNearestEven_cases A b
  have hm_lb : 2 ^ 52 ≤ roundNearestEven A b := by
    rcases hcases with h | h <;> omega
  have hm_ub : roundNearestEven A b ≤ 2 ^ 53 := by
    rcases hcases with h | h <;> omega
  -- rational bounds on the value
  have hbq : (0 : ℚ) < (b : ℚ) := by exact_mod_cast hb
  have h2t : (0 : ℚ) < (2 : ℚ) ^ t := by positivity
  set Y : ℚ := (A : ℚ) / b with hYdef
  have hY : (2 : ℚ) ^ 52 ≤ Y := by
    rw [hYdef, le_div_iff₀ hbq]
    exact_mod_cast h1
  have hup : (roundNearestEven A b : ℚ) ≤ Y + 1 / 2 := roundNearestEven_le A b hb
  have hdown : Y - 1 / 2 ≤ (roundNearestEven A b : ℚ) := le_roundNearestEven A b hb
  have habY : (a : ℚ) / b = Y / 2 ^ t := by
    rw [hYdef, hAdef]
    push_cast
    field_simp
    ring
  have hval : toRat (roundNearestEven A b, -(t : ℤ))
      = (roundNearestEven A b : ℚ) / 2 ^ t := toRat_negExp _ t
  have hhalf : (1 : ℚ) / 2 ≤ Y / 2 ^ 53 := by
    have h53 : (1 : ℚ) / 2 * 2 ^ 53 = 2 ^ 52 := by norm_num
    rw [le_div_iff₀ (by positivity : (0 : ℚ) < (2 : ℚ) ^ 53), h53]
    exact hY
  refine ⟨?_, ?_, ?_, by simpa using hm_ub⟩
  · rw [hval, habY]
    have hkey : ((1 : ℚ) - 1 / 2 ^ 53) * Y ≤ (roundNearestEven A b : ℚ) := by
      have hexp : ((1 : ℚ) - 1 / 2 ^ 53) * Y = Y - Y / 2 ^ 53 := by ring
      linarith
    calc ((1 : ℚ) - 1 / 2 ^ 53) * (Y / 2 ^ t)
        = (((1 : ℚ) - 1 / 2 ^ 53) * Y) / 2 ^ t := by ring
      _ ≤ (roundNearestEven A b : ℚ) / 2 ^ t := by gcongr
  · rw [hval, habY]
    have hkey : (roundNearestEven A b : ℚ) ≤ ((1 : ℚ) + 1 / 2 ^ 53) * Y := by
      have hexp : ((1 : ℚ) + 1 / 2 ^ 53) * Y = Y + Y / 2 ^ 53 := by ring
      linarith
    calc (roundNearestEven A b : ℚ) / 2 ^ t
        ≤ (((1 : ℚ) + 1 / 2 ^ 53) * Y) / 2 ^ t := by gcongr
      _ = ((1 : ℚ) + 1 / 2 ^ 53) * (Y / 2 ^ t) := by ring
  · have hpos : 0 < roundNearestEven A b := by omega
    simpa using hpos

theorem mulNatDouble_spec (w : Nat) (x : FloatVal) (_hx : 0 < x.1)
    (hm : x.1 ≤ 2 ^ 53) (hwB : w ≤ 2 ^ 64) :
    ((1 : ℚ) - 1 / 2 ^ 53) * (w * toRat x) ≤ toRat (mulNatDouble w x) ∧
    toRat (mulNatDouble w x) ≤ ((1 : ℚ) + 1 / 2 ^ 53) * (w * toRat x) := by
  have hT0 : (0 : ℚ) ≤ (w : ℚ) * toRat x := by
    have h := toRat_nonneg x
    positivity
  unfold mulNatDouble
  by_cases hsmall : w * x.1 < 2 ^ 53
  · rw [if_pos hsmall]
    have hexact : toRat (w * x.1, x.2) = (w : ℚ) * toRat x := by
      unfold toRat
      push_cast
      ring
    rw [hexact]
    constructor <;> nlinarith
  · rw [if_neg hsmall]
    push_neg at hsmall
    set p := w * x.1 with hpdef
    have hinv : 2 ^ 52 * 2 ^ 0 ≤ p := by
      have hpow : (2 : ℕ) ^ 52 ≤ 2 ^ 53 := by norm_num
      omega
    have hsufp : p < 2 ^ 53 * 2 ^ (0 + 1200) := by
      have hub : p ≤ 2 ^ 64 * 2 ^ 53 := Nat.mul_le_mul hwB hm
      have hlt : (2 : ℕ) ^ 64 * 2 ^ 53 < 2 ^ 53 * 2 ^ 1200 := by
        calc (2 : ℕ) ^ 64 * 2 ^ 53 = 2 ^ (64 + 53) := (pow_add 2 64 53).symm
          _ < 2 ^ (53 + 1200) := Nat.pow_lt_pow_right (by norm_num) (by norm_num)
          _ = 2 ^ 53 * 2 ^ 1200 := pow_add 2 53 1200
      simpa using lt_of_le_of_lt hub hlt
    have hss := mulShift_spec p 1200 0 hinv hsufp
    rw [if_pos hss]
    obtain ⟨h1, h2⟩ := hss
    set s := mulShift p 1200 0 with hsdef
    set b := (2 : ℕ) ^ s with hbdef
    have hb : 0 < b := by positivity
    have hbq : (0 : ℚ) < (b : ℚ) := by exact_mod_cast hb
    set Y : ℚ := (p : ℚ) / b with hYdef
    have hY : (2 : ℚ) ^ 52 ≤ Y := by
      rw [hYdef, le_div_iff₀ hbq]
      exact_mod_cast h1
    have hup : (roundNearestEven p b : ℚ) ≤ Y + 1 / 2 := roundNearestEven_le p b hb
    have hdown : Y - 1 / 2 ≤ (roundNearestEven p b : ℚ) := le_roundNearestEven p b hb
    have hhalf : (1 : ℚ) / 2 ≤ Y / 2 ^ 53 := by
      have h53 : (1 : ℚ) / 2 * 2 ^ 53 = 2 ^ 52 := by norm_num
      rw [le_div_iff₀ (by positivity : (0 : ℚ) < (2 : ℚ) ^ 53), h53]
      exact hY
    set E : ℚ := (2 : ℚ) ^ x.2 with hEdef
    have hE : (0 : ℚ) < E := by
      rw [hEdef]
      positivity
    have hES : (2 : ℚ) ^ (x.2 + (s : ℤ)) = E * (b : ℚ) := by
      rw [zpow_add₀ (by norm_num : (2 : ℚ) ≠ 0), hEdef, hbdef]
      congr 1
      rw [zpow_natCast]
      push_cast
      ring
    have hpYS : (p : ℚ) = Y * b := by
      rw [hYdef]
      field_simp
    have hT : (w : ℚ) * toRat x = (p : ℚ) * E := by
      unfold toRat
      rw [hEdef, hpdef]
      push_cast
      ring
    have hv : toRat (roundNearestEven p b, x.2 + (s : ℤ))
        = (roundNearestEven p b : ℚ) * (E * b) := by
      unfold toRat
      rw [hES]
    have hSE : (0 : ℚ) ≤ E * b := by positivity
    constructor
    · have hkey : ((1 : ℚ) - 1 / 2 ^ 53) * Y ≤ (roundNearestEven p b : ℚ) := by
        have hexp : ((1 : ℚ) - 1 / 2 ^ 53) * Y = Y - Y / 2 ^ 53 := by ring
        linarith
      calc ((1 : ℚ) - 1 / 2 ^ 53) * ((w : ℚ) * toRat x)
          = (((1 : ℚ) - 1 / 2 ^ 53) * Y) * (E * b) := by rw [hT, hpYS]; ring
        _ ≤ (roundNearestEven p b : ℚ) * (E * b) :=
            mul_le_mul_of_nonneg_right hkey hSE
        _ = toRat (roundNearestEven p b, x.2 + (s : ℤ)) := hv.symm
    · have hkey : (roundNearestEven p b : ℚ) ≤ ((1 : ℚ) + 1 / 2 ^ 53) * Y := by
        have hexp : ((1 : ℚ) + 1 / 2 ^ 53) * Y = Y + Y / 2 ^ 53 := by ring
        linarith
      calc toRat (roundNearestEven p b, x.2 + (s : ℤ))
          = (roundNearestEven p b : ℚ) * (E * b) := hv
        _ ≤ (((1 : ℚ) + 1 / 2 ^ 53) * Y) * (E * b) :=
            mul_le_mul_of_nonneg_right hkey hSE
        _ = ((1 : ℚ) + 1 / 2 ^ 53) * ((w : ℚ) * toRat x) := by rw [hT, hpYS]; ring

theorem leDouble_iff (x y : FloatVal) : leDouble x y = true ↔ toRat x ≤ toRat y := by
  unfold leDouble
  rw [decide_eq_true_eq]
  have hscale : ∀ (m : Nat) (f : ℤ), min x.2 y.2 ≤ f →
      ((m * 2 ^ (f - min x.2 y.2).toNat : Nat) : ℚ)
        * (2 : ℚ) ^ (min x.2 y.2) = toRat (m, f) := by
    intro m f hf
    unfold toRat
    push_cast
    rw [mul_assoc]
    congr 1
    rw [← zpow_natCast (2 : ℚ) (f - min x.2 y.2).toNat,
        Int.toNat_of_nonneg (by omega), ← zpow_add₀ (by norm_num : (2 : ℚ) ≠ 0)]
    congr 1
    omega
  have hx := hscale x.1 x.2 (min_le_left _ _)
  have hy := hscale y.1 y.2 (min_le_right _ _)
  have hpow : (0 : ℚ) < (2 : ℚ) ^ (min x.2 y.2) := by positivity
  constructor
  · intro h
    rw [← hx, ← hy]
    have hq : ((x.1 * 2 ^ (x.2 - min x.2 y.2).toNat : Nat) : ℚ)
        ≤ ((y.1 * 2 ^ (y.2 - min x.2 y.2).toNat : Nat) : ℚ) := by exact_mod_cast h
    exact mul_le_mul_of_nonneg_right hq (le_of_lt hpow)
  · intro h
    rw [← hx, ← hy] at h
    have hq := le_of_mul_le_mul_right h hpow
    exact_mod_cast hq

theorem minDouble_cases (x y : FloatVal) : minDouble x y = x ∨ minDouble x y = y := by
  unfold minDouble
  split
  · exact Or.inl rfl
  · exact Or.inr rfl

theorem toRat_minDouble_le_left (x y : FloatVal) : toRat (minDouble x y) ≤ toRat x := by
  unfold minDouble
  split
  · exact le_refl _
  · rename_i h
    have h2 : ¬ (toRat x ≤ toRat y) := fun hc => h ((leDouble_iff x y).mpr hc)
    exact le_of_not_le h2

theorem toRat_minDouble_le_right (x y : FloatVal) : toRat (minDouble x y) ≤ toRat y := by
  unfold minDouble
  split
  · rename_i h
    exact (leDouble_iff x y).mp h
  · exact le_refl _

theorem floorDouble_eq (x : FloatVal) : floorDouble x = Nat.floor (toRat x) := by
  unfold floorDouble toRat
  split
  · rename_i he
    have hcast : ((x.1 * 2 ^ x.2.toNat : Nat) : ℚ) = (x.1 : ℚ) * (2 : ℚ) ^ x.2 := by
      push_cast
      congr 1
      rw [← zpow_natCast (2 : ℚ) x.2.toNat, Int.toNat_of_nonneg he]
    rw [← hcast, Nat.floor_natCast]
  · rename_i he
    push_neg at he
    have hk : (((-x.2).toNat : ℤ)) = -x.2 := Int.toNat_of_nonneg (by omega)
    have hcast : (x.1 : ℚ) * (2 : ℚ) ^ x.2
        = (x.1 : ℚ) / (((2 : ℕ) ^ (-x.2).toNat : ℕ) : ℚ) := by
      have h2k : (((2 : ℕ) ^ (-x.2).toNat : ℕ) : ℚ) = (2 : ℚ) ^ (((-x.2).toNat : ℤ)) := by
        push_cast
        rw [← zpow_natCast (2 : ℚ) (-x.2).toNat]
      rw [h2k, hk, div_eq_mul_inv, ← zpow_neg, neg_neg]
    rw [hcast, Nat.floor_div_nat, Nat.floor_natCast]

set_option maxRecDepth 4000 in
set_option maxHeartbeats 1600000 in
/-- Claim C9 (amended): for a source bitmap with positive dimensions (of
the integer-exact double range), the target surface never exceeds the 2048
maximum edge nor the 2048 × 2048 maximum area, a source already within both
bounds passes through unchanged, and both output dimensions come from one
common double-precision scale ratio `r ≤ 1`: each lies within the rounding
error of the flooring plus one binary64 rounding, strictly between
`dim * r - 2` and `dim * r + 1`.  The aspect ratio is preserved only up to
this combined error, not within flooring alone. -/
theorem c9_optimal_canvas_size (imgW imgH : Nat) (hw : 1 ≤ imgW) (hh : 1 ≤ imgH)
    (hwB : imgW ≤ 2 ^ 64) (hhB : imgH ≤ 2 ^ 64) :
    (getOptimalCanvasSize imgW imgH).1 ≤ MAX_CANVAS_DIMENSION ∧
    (getOptimalCanvasSize imgW imgH).2 ≤ MAX_CANVAS_DIMENSION ∧
    (getOptimalCanvasSize imgW imgH).1 * (getOptimalCanvasSize imgW imgH).2
      ≤ MAX_CANVAS_AREA ∧
    (∃ r : ℚ, 0 < r ∧ r ≤ 1 ∧
      (imgW : ℚ) * r - 2 < ((getOptimalCanvasSize imgW imgH).1 : ℚ) ∧
      ((getOptimalCanvasSize imgW imgH).1 : ℚ) < (imgW : ℚ) * r + 1 ∧
      (imgH : ℚ) * r - 2 < ((getOptimalCanvasSize imgW imgH).2 : ℚ) ∧
      ((getOptimalCanvasSize imgW imgH).2 : ℚ) < (imgH : ℚ) * r + 1) ∧
    (imgW ≤ MAX_CANVAS_DIMENSION → imgH ≤ MAX_CANVAS_DIMENSION →
      getOptimalCanvasSize imgW imgH = (imgW, imgH)) := by
  by_cases hcond : MAX_CANVAS_DIMENSION < imgW ∨ MAX_CANVAS_DIMENSION < imgH
  · -- clamping branch
    have hMq : (MAX_CANVAS_DIMENSION : ℚ) = 2048 := by norm_num [MAX_CANVAS_DIMENSION]
    have hMpos : 0 < MAX_CANVAS_DIMENSION := by norm_num [MAX_CANVAS_DIMENSION]
    have hWq : (0 : ℚ) < (imgW : ℚ) := by exact_mod_cast hw
    have hHq : (0 : ℚ) < (imgH : ℚ) := by exact_mod_cast hh
    have hab1 : MAX_CANVAS_DIMENSION < 2 ^ 53 * imgW := by
      have h1 : (2 : ℕ) ^ 53 * 1 ≤ 2 ^ 53 * imgW := Nat.mul_le_mul_left _ hw
      norm_num [MAX_CANVAS_DIMENSION] at h1 ⊢
      omega
    have hab2 : MAX_CANVAS_DIMENSION < 2 ^ 53 * imgH := by
      have h1 : (2 : ℕ) ^ 53 * 1 ≤ 2 ^ 53 * imgH := Nat.mul_le_mul_left _ hh
      norm_num [MAX_CANVAS_DIMENSION] at h1 ⊢
      omega
    have hsuf1 : 2 ^ 52 * imgW ≤ MAX_CANVAS_DIMENSION * 2 ^ 1200 := by
      calc 2 ^ 52 * imgW ≤ 2 ^ 52 * 2 ^ 64 := Nat.mul_le_mul_left _ hwB
        _ = 2 ^ 116 := (pow_add 2 52 64).symm
        _ ≤ 2 ^ 1200 := Nat.pow_le_pow_right (by norm_num) (by norm_num)
        _ ≤ MAX_CANVAS_DIMENSION * 2 ^ 1200 := Nat.le_mul_of_pos_left _ hMpos
    have hsuf2 : 2 ^ 52 * imgH ≤ MAX_CANVAS_DIMENSION * 2 ^ 1200 := by
      calc 2 ^ 52 * imgH ≤ 2 ^ 52 * 2 ^ 64 := Nat.mul_le_mul_left _ hhB
        _ = 2 ^ 116 := (pow_add 2 52 64).symm
        _ ≤ 2 ^ 1200 := Nat.pow_le_pow_right (by norm_num) (by norm_num)
        _ ≤ MAX_CANVAS_DIMENSION * 2 ^ 1200 := Nat.le_mul_of_pos_left _ hMpos
    obtain ⟨s1lo, s1hi, s1mpos, s1mle⟩ :=
      divDouble_spec MAX_CANVAS_DIMENSION imgW hMpos hw hab1 hsuf1
    obtain ⟨s2lo, s2hi, s2mpos, s2mle⟩ :=
      divDouble_spec MAX_CANVAS_DIMENSION imgH hMpos hh hab2 hsuf2
    set d1 := divDouble MAX_CANVAS_DIMENSION imgW with hd1
    set d2 := divDouble MAX_CANVAS_DIMENSION imgH with hd2
    set r := toRat (clampRatio imgW imgH) with hrdef
    have hr_le1 : r ≤ toRat d1 := toRat_minDouble_le_left d1 d2
    have hr_le2 : r ≤ toRat d2 := toRat_minDouble_le_right d1 d2
    have hlo1_pos : (0 : ℚ) < ((1 : ℚ) - 1 / 2 ^ 53) * ((MAX_CANVAS_DIMENSION : ℚ) / imgW) := by
      rw [hMq]
      have hq : (0 : ℚ) < (2048 : ℚ) / imgW := by positivity
      exact mul_pos (by norm_num) hq
    have hr_pos : 0 < r := by
      rcases minDouble_cases d1 d2 with hcase | hcase <;>
        rw [hrdef, clampRatio, ← hd1, ← hd2, hcase]
      · exact lt_of_lt_of_le hlo1_pos s1lo
      · have hlo2_pos : (0 : ℚ)
            < ((1 : ℚ) - 1 / 2 ^ 53) * ((MAX_CANVAS_DIMENSION : ℚ) / imgH) := by
          rw [hMq]
          have hq : (0 : ℚ) < (2048 : ℚ) / imgH := by positivity
          exact mul_pos (by norm_num) hq
        exact lt_of_lt_of_le hlo2_pos s2lo
    have hmant : 0 < (clampRatio imgW imgH).1 ∧ (clampRatio imgW imgH).1 ≤ 2 ^ 53 := by
      rcases minDouble_cases d1 d2 with hcase | hcase <;>
        rw [clampRatio, ← hd1, ← hd2, hcase]
      · exact ⟨s1mpos, s1mle⟩
      · exact ⟨s2mpos, s2mle⟩
    obtain ⟨m1lo, m1hi⟩ :=
      mulNatDouble_spec imgW (clampRatio imgW imgH) hmant.1 hmant.2 hwB
    obtain ⟨m2lo, m2hi⟩ :=
      mulNatDouble_spec imgH (clampRatio imgW imgH) hmant.1 hmant.2 hhB
    set P1 := toRat (mulNatDouble imgW (clampRatio imgW imgH)) with hP1
    set P2 := toRat (mulNatDouble imgH (clampRatio imgW imgH)) with hP2
    have hwr_ub : (imgW : ℚ) * r ≤ 2048 * (1 + 1 / 2 ^ 53) := by
      have hc1 : (imgW : ℚ) * r ≤ (imgW : ℚ) * toRat d1 :=
        mul_le_mul_of_nonneg_left hr_le1 (le_of_lt hWq)
      have hc2 : (imgW : ℚ) * toRat d1
          ≤ (imgW : ℚ) * (((1 : ℚ) + 1 / 2 ^ 53) * ((MAX_CANVAS_DIMENSION : ℚ) / imgW)) :=
        mul_le_mul_of_nonneg_left s1hi (le_of_lt hWq)
      have hc3 : (imgW : ℚ) * (((1 : ℚ) + 1 / 2 ^ 53) * ((MAX_CANVAS_DIMENSION : ℚ) / imgW))
          = 2048 * (1 + 1 / 2 ^ 53) := by
        rw [hMq]
        field_simp
        ring
      linarith
    have hhr_ub : (imgH : ℚ) * r ≤ 2048 * (1 + 1 / 2 ^ 53) := by
      have hc1 : (imgH : ℚ) * r ≤ (imgH : ℚ) * toRat d2 :=
        mul_le_mul_of_nonneg_left hr_le2 (le_of_lt hHq)
      have hc2 : (imgH : ℚ) * toRat d2
          ≤ (imgH : ℚ) * (((1 : ℚ) + 1 / 2 ^ 53) * ((MAX_CANVAS_DIMENSION : ℚ) / imgH)) :=
        mul_le_mul_of_nonneg_left s2hi (le_of_lt hHq)
      have hc3 : (imgH : ℚ) * (((1 : ℚ) + 1 / 2 ^ 53) * ((MAX_CANVAS_DIMENSION : ℚ) / imgH))
          = 2048 * (1 + 1 / 2 ^ 53) := by
        rw [hMq]
        field_simp
        ring
      linarith
    have hwr_nonneg : (0 : ℚ) ≤ (imgW : ℚ) * r := by positivity
    have hhr_nonneg : (0 : ℚ) ≤ (imgH : ℚ) * r := by positivity
    have hnum1 : ((1 : ℚ) + 1 / 2 ^ 53) * (2048 * (1 + 1 / 2 ^ 53)) < 2049 := by norm_num
    have hnum2 : ((1 : ℚ) / 2 ^ 53) * (2048 * (1 + 1 / 2 ^ 53)) < 1 := by norm_num
    have hP1_ub : P1 < 2049 := by
      have hc : ((1 : ℚ) + 1 / 2 ^ 53) * ((imgW : ℚ) * r)
          ≤ ((1 : ℚ) + 1 / 2 ^ 53) * (2048 * (1 + 1 / 2 ^ 53)) :=
        mul_le_mul_of_nonneg_left hwr_ub (by norm_num)
      linarith
    have hP2_ub : P2 < 2049 := by
      have hc : ((1 : ℚ) + 1 / 2 ^ 53) * ((imgH : ℚ) * r)
          ≤ ((1 : ℚ) + 1 / 2 ^ 53) * (2048 * (1 + 1 / 2 ^ 53)) :=
        mul_le_mul_of_nonneg_left hhr_ub (by norm_num)
      linarith
    have hP1_nonneg : (0 : ℚ) ≤ P1 :=
      le_trans (mul_nonneg (by norm_num) hwr_nonneg) m1lo
    have hP2_nonneg : (0 : ℚ) ≤ P2 :=
      le_trans (mul_nonneg (by norm_num) hhr_nonneg) m2lo
    have hfw : floorDouble (mulNatDouble imgW (clampRatio imgW imgH)) ≤ MAX_CANVAS_DIMENSION := by
      rw [floorDouble_eq, ← hP1]
      have hfl : Nat.floor P1 < 2049 := (Nat.floor_lt hP1_nonneg).mpr (by exact_mod_cast hP1_ub)
      norm_num [MAX_CANVAS_DIMENSION]
      omega
    have hfh : floorDouble (mulNatDouble imgH (clampRatio imgW imgH)) ≤ MAX_CANVAS_DIMENSION := by
      rw [floorDouble_eq, ← hP2]
      have hfl : Nat.floor P2 < 2049 := (Nat.floor_lt hP2_nonneg).mpr (by exact_mod_cast hP2_ub)
      norm_num [MAX_CANVAS_DIMENSION]
      omega
    have hs : getOptimalCanvasSize imgW imgH =
        (floorDouble (mulNatDouble imgW (clampRatio imgW imgH)),
         floorDouble (mulNatDouble imgH (clampRatio imgW imgH))) := by
      rw [getOptimalCanvasSize, dimensionClamp, if_pos hcond, areaClamp]
      exact if_neg (area_clamp_skip hfw hfh)
    refine ⟨by rw [hs]; exact hfw, by rw [hs]; exact hfh, ?_, ?_, ?_⟩
    · rw [hs]
      have hA : MAX_CANVAS_DIMENSION * MAX_CANVAS_DIMENSION = MAX_CANVAS_AREA := by
        norm_num [MAX_CANVAS_DIMENSION, MAX_CANVAS_AREA]
      calc floorDouble (mulNatDouble imgW (clampRatio imgW imgH))
            * floorDouble (mulNatDouble imgH (clampRatio imgW imgH))
          ≤ MAX_CANVAS_DIMENSION * MAX_CANVAS_DIMENSION := Nat.mul_le_mul hfw hfh
        _ = MAX_CANVAS_AREA := hA
    · have hr_one : r ≤ 1 := by
        rcases hcond with hWc | hHc
        · have h2049 : (2049 : ℚ) ≤ (imgW : ℚ) := by exact_mod_cast hWc
          have hq : (MAX_CANVAS_DIMENSION : ℚ) / imgW ≤ 2048 / 2049 := by
            rw [hMq]
            exact div_le_div_of_nonneg_left (by norm_num) (by norm_num) h2049
          have hc : toRat d1 ≤ ((1 : ℚ) + 1 / 2 ^ 53) * ((2048 : ℚ) / 2049) := by
            refine le_trans s1hi ?_
            exact mul_le_mul_of_nonneg_left hq (by norm_num)
          have hnum : ((1 : ℚ) + 1 / 2 ^ 53) * ((2048 : ℚ) / 2049) ≤ 1 := by norm_num
          linarith
        · have h2049 : (2049 : ℚ) ≤ (imgH : ℚ) := by exact_mod_cast hHc
          have hq : (MAX_CANVAS_DIMENSION : ℚ) / imgH ≤ 2048 / 2049 := by
            rw [hMq]
            exact div_le_div_of_nonneg_left (by norm_num) (by norm_num) h2049
          have hc : toRat d2 ≤ ((1 : ℚ) + 1 / 2 ^ 53) * ((2048 : ℚ) / 2049) := by
            refine le_trans s2hi ?_
            exact mul_le_mul_of_nonneg_left hq (by norm_num)
          have hnum : ((1 : ℚ) + 1 / 2 ^ 53) * ((2048 : ℚ) / 2049) ≤ 1 := by norm_num
          linarith
      refine ⟨r, hr_pos, hr_one, ?_, ?_, ?_, ?_⟩
      · rw [hs]
        have hfl : P1 < (Nat.floor P1 : ℚ) + 1 := Nat.lt_floor_add_one P1
        have herr : ((1 : ℚ) / 2 ^ 53) * ((imgW : ℚ) * r)
            ≤ ((1 : ℚ) / 2 ^ 53) * (2048 * (1 + 1 / 2 ^ 53)) :=
          mul_le_mul_of_nonneg_left hwr_ub (by norm_num)
        have hcast : ((floorDouble (mulNatDouble imgW (clampRatio imgW imgH)) : ℕ) : ℚ)
            = (Nat.floor P1 : ℚ) := by rw [floorDouble_eq, ← hP1]
        rw [hcast]
        have hexp : ((1 : ℚ) - 1 / 2 ^ 53) * ((imgW : ℚ) * r)
            = (imgW : ℚ) * r - ((1 : ℚ) / 2 ^ 53) * ((imgW : ℚ) * r) := by ring
        linarith [m1lo, hexp]
      · rw [hs]
        have hfl : (Nat.floor P1 : ℚ) ≤ P1 := Nat.floor_le hP1_nonneg
        have herr : ((1 : ℚ) / 2 ^ 53) * ((imgW : ℚ) * r)
            ≤ ((1 : ℚ) / 2 ^ 53) * (2048 * (1 + 1 / 2 ^ 53)) :=
          mul_le_mul_of_nonneg_left hwr_ub (by norm_num)
        have hcast : ((floorDouble (mulNatDouble imgW (clampRatio imgW imgH)) : ℕ) : ℚ)
            = (Nat.floor P1 : ℚ) := by rw [floorDouble_eq, ← hP1]
        rw [hcast]
        have hexp : ((1 : ℚ) + 1 / 2 ^ 53) * ((imgW : ℚ) * r)
            = (imgW : ℚ) * r + ((1 : ℚ) / 2 ^ 53) * ((imgW : ℚ) * r) := by ring
        linarith [m1hi, hexp]
      · rw [hs]
        have hfl : P2 < (Nat.floor P2 : ℚ) + 1 := Nat.lt_floor_add_one P2
        have herr : ((1 : ℚ) / 2 ^ 53) * ((imgH : ℚ) * r)
            ≤ ((1 : ℚ) / 2 ^ 53) * (2048 * (1 + 1 / 2 ^ 53)) :=
          mul_le_mul_of_nonneg_left hhr_ub (by norm_num)
        have hcast : ((floorDouble (mulNatDouble imgH (clampRatio imgW imgH)) : ℕ) : ℚ)
            = (Nat.floor P2 : ℚ) := by rw [floorDouble_eq, ← hP2]
        rw [hcast]
        have hexp : ((1 : ℚ) - 1 / 2 ^ 53) * ((imgH : ℚ) * r)
            = (imgH : ℚ) * r - ((1 : ℚ) / 2 ^ 53) * ((imgH : ℚ) * r) := by ring
        linarith [m2lo, hexp]
      · rw [hs]
        have hfl : (Nat.floor P2 : ℚ) ≤ P2 := Nat.floor_le hP2_nonneg
        have herr : ((1 : ℚ) / 2 ^ 53) * ((imgH : ℚ) * r)
            ≤ ((1 : ℚ) / 2 ^ 53) * (2048 * (1 + 1 / 2 ^ 53)) :=
          mul_le_mul_of_nonneg_left hhr_ub (by norm_num)
        have hcast : ((floorDouble (mulNatDouble imgH (clampRatio imgW imgH)) : ℕ) : ℚ)
            = (Nat.floor P2 : ℚ) := by rw [floorDouble_eq, ← hP2]
        rw [hcast]
        have hexp : ((1 : ℚ) + 1 / 2 ^ 53) * ((imgH : ℚ) * r)
            = (imgH : ℚ) * r + ((1 : ℚ) / 2 ^ 53) * ((imgH : ℚ) * r) := by ring
        linarith [m2hi, hexp]
    · intro h1 h2
      exfalso
      omega
  · -- pass-through branch
    have hW : imgW ≤ MAX_CANVAS_DIMENSION := by omega
    have hH : imgH ≤ MAX_CANVAS_DIMENSION := by omega
    have hs : getOptimalCanvasSize imgW imgH = (imgW, imgH) := by
      rw [getOptimalCanvasSize, dimensionClamp, if_neg hcond, areaClamp]
      exact if_neg (area_clamp_skip hW hH)
    refine ⟨by rw [hs]; exact hW, by rw [hs]; exact hH, ?_, ?_, fun _ _ => hs⟩
    · rw [hs]
      have hA : MAX_CANVAS_DIMENSION * MAX_CANVAS_DIMENSION = MAX_CANVAS_AREA := by
        norm_num [MAX_CANVAS_DIMENSION, MAX_CANVAS_AREA]
      calc imgW * imgH ≤ MAX_CANVAS_DIMENSION * MAX_CANVAS_DIMENSION := Nat.mul_le_mul hW hH
        _ = MAX_CANVAS_AREA := hA
    · refine ⟨1, one_pos, le_refl 1, ?_, ?_, ?_, ?_⟩ <;> rw [hs] <;> push_cast <;> linarith

set_option maxRecDepth 4000 in
set_option maxHeartbeats 1600000 in
/-- Counterexample for C9 as stated: at the source bitmap 11968 × 4675 the
program (double arithmetic) outputs (2047, 800), and since
`2048 / 11968 = 800 / 4675 = 32 / 187` exactly, no single exact rational
ratio `r` satisfies `2047 = floor (11968 * r)` and `800 = floor (4675 * r)`
— the claimed aspect preservation "within the rounding error introduced by
flooring" (a common exact ratio, floored) is false of the program. -/
theorem c9_optimal_canvas_size_counterexample :
    getOptimalCanvasSize 11968 4675 = (2047, 800) ∧
    ¬ ∃ r : ℚ,
      (getOptimalCanvasSize 11968 4675).1 = Nat.floor ((11968 : ℚ) * r) ∧
      (getOptimalCanvasSize 11968 4675).2 = Nat.floor ((4675 : ℚ) * r) := by
  have heval : getOptimalCanvasSize 11968 4675 = (2047, 800) := by decide
  refine ⟨heval, ?_⟩
  rintro ⟨r, h1, h2⟩
  rw [heval] at h1 h2
  have hw := (Nat.floor_eq_iff' (by norm_num : (2047 : ℕ) ≠ 0)).mp h1.symm
  have hh := (Nat.floor_eq_iff' (by norm_num : (800 : ℕ) ≠ 0)).mp h2.symm
  obtain ⟨hw1, hw2⟩ := hw
  obtain ⟨hh1, hh2⟩ := hh
  push_cast at hw1 hw2 hh1 hh2
  linarith

set_option maxRecDepth 4000 in
set_option maxHeartbeats 1600000 in
/-- Witness for C9 (amended): a 4096 × 1024 bitmap, halved exactly to
(2048, 512). -/
theorem c9_optimal_canvas_size_witness :
    (getOptimalCanvasSize 4096 1024 = (2048, 512) ∧
      (1 : Nat) ≤ 4096 ∧ (1 : Nat) ≤ 1024 ∧ (4096 : Nat) ≤ 2 ^ 64 ∧ (1024 : Nat) ≤ 2 ^ 64) ∧
    ((getOptimalCanvasSize 4096 1024).1 ≤ MAX_CANVAS_DIMENSION ∧
      (getOptimalCanvasSize 4096 1024).2 ≤ MAX_CANVAS_DIMENSION ∧
      (getOptimalCanvasSize 4096 1024).1 * (getOptimalCanvasSize 4096 1024).2
        ≤ MAX_CANVAS_AREA ∧
      (∃ r : ℚ, 0 < r ∧ r ≤ 1 ∧
        (4096 : ℚ) * r - 2 < ((getOptimalCanvasSize 4096 1024).1 : ℚ) ∧
        ((getOptimalCanvasSize 4096 1024).1 : ℚ) < (4096 : ℚ) * r + 1 ∧
        (1024 : ℚ) * r - 2 < ((getOptimalCanvasSize 4096 1024).2 : ℚ) ∧
        ((getOptimalCanvasSize 4096 1024).2 : ℚ) < (1024 : ℚ) * r + 1) ∧
      ((4096 : Nat) ≤ MAX_CANVAS_DIMENSION → (1024 : Nat) ≤ MAX_CANVAS_DIMENSION →
        getOptimalCanvasSize 4096 1024 = (4096, 1024))) :=
  ⟨⟨by decide, by decide, by decide, by decide, by decide⟩, by
    have h := c9_optimal_canvas_size 4096 1024 (by decide) (by decide) (by decide) (by decide)
    simpa using h⟩

/-! ## Claim C10 -/

theorem mem_of_mem_cleanupOldCacheWith {maxSize : Nat} {m : CacheStore}
    {e : String × CachedImage} (h : e ∈ cleanupOldCacheWith maxSize m) : e ∈ m := by
  unfold cleanupOldCacheWith at h
  split at h
  · exact h
  · rw [removeOldest, deleteAll_eq_filter] at h
    exact List.mem_of_mem_filter h

/-- Claim C10: on the ordinary path (locator without the `?t=` reload
marker, gray-canvas branch not taken, store within its capacity invariant) a
lookup that finds an entry older than the TTL reports a miss yet leaves the
store exactly as it was — the expired entry stays put; expired entries are
removed only by the expiry sweep run by a later put, after which no
surviving entry is older than the TTL. -/
theorem c10_expired_lookup_frame (constrained : Bool) (grayCheck : Nat → Bool)
    (alt : String) (now : Nat) (store : CacheStore) (imageSrc : String)
    (c : CachedImage)
    (hmark : strContains imageSrc "?t=" = false)
    (hsize : store.length ≤ MAX_CACHE_SIZE)
    (hget : mapGet store (getCacheKey imageSrc alt) = some c)
    (hgray : (constrained && grayCheck c.canvas) = false)
    (hexp : CACHE_EXPIRY_TIME < now - c.timestamp) :
    lookupPhase constrained grayCheck alt now store imageSrc = (store, none) ∧
    (∀ key a e, e ∈ cacheSave store key a now →
      now - e.2.timestamp ≤ CACHE_EXPIRY_TIME) := by
  constructor
  · rw [lookupPhase]
    rw [checkMemoryPressure_of_le hsize]
    simp only [hmark, Bool.false_eq_true, if_false, hget, hgray, if_false]
    rw [if_neg (by omega)]
  · intro key a e he
    have h1 : e ∈ cleanupExpiredCache now (mapSet store key ⟨a, now⟩) :=
      mem_of_mem_cleanupOldCacheWith he
    have h2 := (List.mem_filter.mp h1).2
    simp only [Bool.not_eq_eq_eq_not, Bool.not_true, decide_eq_false_iff_not,
      not_lt] at h2
    simpa using h2

/-- Witness for C10: a single entry stamped at time 0, looked up at
time 3 600 001 ms (one past the 60-minute TTL). -/
theorem c10_expired_lookup_frame_witness :
    (strContains "u" "?t=" = false ∧
      mapGet [("u|a", CachedImage.mk 5 0)] (getCacheKey "u" "a")
        = some (CachedImage.mk 5 0) ∧
      CACHE_EXPIRY_TIME < 3600001 - (CachedImage.mk 5 0).timestamp) ∧
    (lookupPhase false (fun _ => false) "a" 3600001 [("u|a", CachedImage.mk 5 0)] "u"
        = ([("u|a", CachedImage.mk 5 0)], none) ∧
      (∀ key a e, e ∈ cacheSave [("u|a", CachedImage.mk 5 0)] key a 3600001 →
        3600001 - e.2.timestamp ≤ CACHE_EXPIRY_TIME)) :=
  ⟨⟨by decide, by decide, by decide⟩,
    c10_expired_lookup_frame false (fun _ => false) "a" 3600001
      [("u|a", CachedImage.mk 5 0)] "u" (CachedImage.mk 5 0)
      (by decide) (by decide) (by decide) (by decide) (by decide)⟩

/-! ## Claim C8 -/

/-- Claim C8: the watermark renderer is a pure function of the decoded
bitmap, the surface dimensions and the environment-determined metrics — two
renders of the same bitmap with the same label are identical, renders of the
same bitmap with different labels are also pixel-identical (the drawn text
is the constant `ToruTora`; the label never reaches a drawing step), and the
label participates in the cache key: distinct labels give distinct keys for
every locator. -/
theorem c8_render_determinism (l1 l2 : String) (hne : l1 ≠ l2) :
    (∀ (env : RenderEnv) (bitmap imgW imgH : Nat),
      drawWatermarked env bitmap imgW imgH l1 = drawWatermarked env bitmap imgW imgH l2) ∧
    (∀ (env : RenderEnv) (bitmap imgW imgH : Nat),
      drawWatermarked env bitmap imgW imgH l1 = drawWatermarked env bitmap imgW imgH l1) ∧
    (∀ src, getCacheKey src l1 ≠ getCacheKey src l2) := by
  refine ⟨fun env bitmap imgW imgH => rfl, fun env bitmap imgW imgH => rfl, ?_⟩
  intro src hcontra
  exact hne (getCacheKey_right_inj hcontra)

/-- Witness for C8 at the labels `p1` and `p2`. -/
theorem c8_render_determinism_witness :
    ("p1" ≠ "p2") ∧
    ((∀ (env : RenderEnv) (bitmap imgW imgH : Nat),
        drawWatermarked env bitmap imgW imgH "p1"
          = drawWatermarked env bitmap imgW imgH "p2") ∧
      (∀ (env : RenderEnv) (bitmap imgW imgH : Nat),
        drawWatermarked env bitmap imgW imgH "p1"
          = drawWatermarked env bitmap imgW imgH "p1") ∧
      (∀ src, getCacheKey src "p1" ≠ getCacheKey src "p2")) :=
  ⟨by decide, c8_render_determinism "p1" "p2" (by decide)⟩

end Torutora
